import Mathlib

/-!
# CSpxStreamPump: controller state machine and pump thread

A shallow embedding of `source/core/audio/stream_pump.cpp`.

* The controller (`CSpxStreamPump`) is a record of the four members the
  methods touch; every method is a function from the record to a `Call`
  (what was thrown, the record afterwards, whether a thread was created and
  whether the caller then blocks on the condition variable).
* `PumpThread` is the worker body as a function of the controller, of an
  environment `Env` (what each `Read` returns, whether the processor keeps
  each buffer, where a `StopPump` lands) and of a step budget; it returns the
  controller afterwards together with the list of calls it made.
* `System` interleaves one controlling caller with the worker, one
  lock-protected block per step.
-/

namespace CSpxStreamPump

/-! ## Data model -/

/-- The enumeration `ISpxAudioPump::State`. -/
inductive State where
  | NoInput
  | Idle
  | Paused
  | Processing
  deriving DecidableEq, Repr

/-- The error codes thrown by `SPX_IFTRUE_THROW_HR` / `SPX_THROW_HR` in this file. -/
inductive SPXHR where
  | SPXERR_ALREADY_INITIALIZED
  | SPXERR_AUDIO_IS_PUMPING
  | SPXERR_UNINITIALIZED
  | SPXERR_NO_AUDIO_INPUT
  | SPXERR_NOT_IMPL
  | SPXERR_UNSUPPORTED_FORMAT
  deriving DecidableEq, Repr

/-- Modelled from the spec: the declaration of `AudioInputStreamFormat` is in a
header that is not part of the sources; the fields are the seven the source
copies one by one (the format descriptor of the data model: sample rate,
channel count, bits per sample, block alignment, average bytes per second,
encoding tag, size of the extension). Field values are naturals; the widths
are applied where the source computes with them. -/
structure AudioInputStreamFormat where
  wFormatTag : Nat
  nChannels : Nat
  nSamplesPerSec : Nat
  nAvgBytesPerSec : Nat
  nBlockAlign : Nat
  wBitsPerSample : Nat
  cbSize : Nat
  deriving DecidableEq, Repr

/-- Modelled from the spec: the declaration of `WAVEFORMATEX` is in a header
that is not part of the sources; same seven fields as the source assigns. -/
structure WAVEFORMATEX where
  wFormatTag : Nat
  nChannels : Nat
  nSamplesPerSec : Nat
  nAvgBytesPerSec : Nat
  nBlockAlign : Nat
  wBitsPerSample : Nat
  cbSize : Nat
  deriving DecidableEq, Repr

/-- The object behind an `AudioInputStream*`: `handle` tells two readers apart,
`format` is what its `GetFormat` reports. What its `Read` returns belongs to
the environment of a run (`Env`). -/
structure AudioInputStream where
  handle : Nat
  format : AudioInputStreamFormat
  deriving DecidableEq, Repr

end CSpxStreamPump

/-- The members of the class `CSpxStreamPump` that its methods read and write.
`m_streamReader = none` is the null pointer; `m_thread` is `m_thread.joinable()`. -/
structure CSpxStreamPump where
  m_streamReader : Option CSpxStreamPump.AudioInputStream
  m_state : CSpxStreamPump.State
  m_stateRequested : CSpxStreamPump.State
  m_thread : Bool
  deriving DecidableEq, Repr

namespace CSpxStreamPump

/-- What one controller call did while it held `m_mutex`: the error it threw
(`none` when it did not throw), the members afterwards, whether it created a
`std::thread` running `PumpThread`, and whether the caller then blocks in
`m_cv.wait`. -/
structure Call where
  thrown : Option SPXHR
  pump : CSpxStreamPump
  spawned : Bool
  waits : Bool
  deriving DecidableEq, Repr

/-- A call that threw `hr` before changing anything. -/
def throwHR (hr : SPXHR) (p : CSpxStreamPump) : Call :=
  { thrown := some hr, pump := p, spawned := false, waits := false }

/-- A call that ran to its end without creating a thread or blocking. -/
def returned (p : CSpxStreamPump) : Call :=
  { thrown := none, pump := p, spawned := false, waits := false }

/-- The constructor `CSpxStreamPump::CSpxStreamPump()`; a default-constructed
`std::thread` is not joinable. -/
def new : CSpxStreamPump :=
  { m_streamReader := none
    m_state := State.NoInput
    m_stateRequested := State.NoInput
    m_thread := false }

/-- The method `SetAudioStream(AudioInputStream* reader)`. -/
def SetAudioStream (reader : Option AudioInputStream) (p : CSpxStreamPump) : Call :=
  if reader ≠ none ∧ p.m_streamReader ≠ none then
    throwHR SPXHR.SPXERR_ALREADY_INITIALIZED p
  else if p.m_state = State.Paused ∨ p.m_state = State.Processing then
    throwHR SPXHR.SPXERR_AUDIO_IS_PUMPING p
  else
    returned { p with
      m_streamReader := reader
      m_state := if reader ≠ none then State.Idle else State.NoInput }

/-- The method `GetFormat(WAVEFORMATEX*, uint16_t)`: what it throws, or the
descriptor it fills in field by field. -/
def GetFormat (p : CSpxStreamPump) : Except SPXHR WAVEFORMATEX :=
  match p.m_streamReader with
  | none => Except.error SPXHR.SPXERR_UNINITIALIZED
  | some reader =>
    let format := reader.format
    Except.ok
      { cbSize := format.cbSize
        nAvgBytesPerSec := format.nAvgBytesPerSec
        nBlockAlign := format.nBlockAlign
        nChannels := format.nChannels
        nSamplesPerSec := format.nSamplesPerSec
        wBitsPerSample := format.wBitsPerSample
        wFormatTag := format.wFormatTag }

/-- The method `SetFormat(const WAVEFORMATEX*, uint16_t)`. -/
def SetFormat (p : CSpxStreamPump) : Call :=
  throwHR SPXHR.SPXERR_NOT_IMPL p

/-- The predicate `StartPump` waits for on `m_cv`. -/
def startPumpMayReturn (p : CSpxStreamPump) : Bool :=
  decide (p.m_state = State.Processing) || decide (p.m_stateRequested ≠ State.Processing)

/-- The predicate `StopPump` waits for on `m_cv`. -/
def stopPumpMayReturn (p : CSpxStreamPump) : Bool :=
  decide (p.m_state = State.Idle) || decide (p.m_stateRequested ≠ State.Idle)

/-- The method `StartPump`, up to the point where it blocks in `m_cv.wait`
(which blocks exactly when the predicate is false at that moment). -/
def StartPump (p : CSpxStreamPump) : Call :=
  if p.m_streamReader = none then throwHR SPXHR.SPXERR_UNINITIALIZED p
  else if p.m_thread = true then throwHR SPXHR.SPXERR_AUDIO_IS_PUMPING p
  else if p.m_state = State.NoInput then throwHR SPXHR.SPXERR_NO_AUDIO_INPUT p
  else if p.m_state = State.Processing then throwHR SPXHR.SPXERR_AUDIO_IS_PUMPING p
  else if p.m_state = State.Paused then throwHR SPXHR.SPXERR_NOT_IMPL p
  else
    let p1 := { p with m_thread := true }
    let p2 := { p1 with m_stateRequested := State.Processing }
    { thrown := none, pump := p2, spawned := true, waits := !startPumpMayReturn p2 }

/-- The method `PausePump`. -/
def PausePump (p : CSpxStreamPump) : Call :=
  throwHR SPXHR.SPXERR_NOT_IMPL p

/-- The method `StopPump`, up to the point where it blocks in `m_cv.wait`. -/
def StopPump (p : CSpxStreamPump) : Call :=
  match p.m_state with
  | State.NoInput => returned p
  | State.Idle => returned p
  | State.Paused =>
    let p1 := { p with m_stateRequested := State.Idle }
    { thrown := none, pump := p1, spawned := false, waits := !stopPumpMayReturn p1 }
  | State.Processing =>
    let p1 := { p with m_stateRequested := State.Idle }
    { thrown := none, pump := p1, spawned := false, waits := !stopPumpMayReturn p1 }

/-- The method `GetState`. -/
def GetState (p : CSpxStreamPump) : State :=
  p.m_state

/-- The lambda `checkAndChangeState` of `PumpThread`: the value it returns and
the members afterwards. -/
def checkAndChangeState (p : CSpxStreamPump) : Bool × CSpxStreamPump :=
  let p1 := if p.m_stateRequested ≠ p.m_state then { p with m_state := p.m_stateRequested } else p
  if p1.m_state = State.Processing then (true, p1)
  else (false, { p1 with m_thread := false })

/-- The end-of-stream block of the loop body: under the lock,
`m_stateRequested = State::Idle`. -/
def requestIdle (p : CSpxStreamPump) : CSpxStreamPump :=
  { p with m_stateRequested := State.Idle }

/-! ## The pump thread -/

/-- A call the pump thread makes on the processor, the allocator or the reader.
Buffers are numbered in the order they are allocated. `Read` records
`data.use_count()` at the moment of the call. -/
inductive Event where
  | SetFormat (pformat : Option WAVEFORMATEX)
  | Alloc (buffer : Nat) (size : Nat)
  | Read (buffer : Nat) (maxBytes : Nat) (useCount : Nat)
  | ProcessAudio (buffer : Nat) (cbRead : Nat)
  deriving DecidableEq, Repr

/-- What surrounds one run of the pump thread, call by call (counted from 0):
`read k` is the byte count the reader returns from the `k`-th `Read`,
`keeps k` tells whether the processor still holds the `shared_ptr` it was
given once the `k`-th `ProcessAudio` has returned, and `stops k` tells
whether the controlling caller runs `StopPump` before the `k`-th
`checkAndChangeState`. -/
structure Env where
  read : Nat → Nat
  keeps : Nat → Bool
  stops : Nat → Bool

/-- The locals of `PumpThread` that outlive the format negotiation: the frame
size, the buffer `data` points to with its `use_count()`, the number of
buffers allocated so far, and the calls made so far, oldest first. -/
structure Locals where
  bytesPerFrame : Nat
  data : Nat
  useCount : Nat
  allocated : Nat
  trace : List Event
  deriving DecidableEq, Repr

/-- How a run of `PumpThread` stands: it returned, it left by an exception, it
dereferenced a null `m_streamReader`, or the step budget ran out with the loop
still going. -/
inductive Status where
  | Returned
  | Threw (hr : SPXHR)
  | NullReader
  | Running
  deriving DecidableEq, Repr

/-- The result of running `PumpThread`: status, members of the controller
afterwards, and every call made, oldest first. -/
structure Run where
  status : Status
  pump : CSpxStreamPump
  trace : List Event
  deriving DecidableEq, Repr

/-- Modelled from the spec: `unsigned int` / `DWORD` (the type of
`nSamplesPerSec`, hence of `samplesPerSec / framesPerSec * bytesPerSample`) is
declared outside the sources; it is the 32-bit field of the format
descriptor, so the arithmetic is modulo this number. -/
def UINT_MOD : Nat := 2 ^ 32

/-- Modelled from the spec: `WORD` (the type of `wBitsPerSample`) is declared
outside the sources; it is the 16-bit field of the format descriptor. -/
def WORD_MOD : Nat := 2 ^ 16

/-- The field-by-field copy `waveformat->x = format.x` of `PumpThread`. -/
def toWAVEFORMATEX (format : AudioInputStreamFormat) : WAVEFORMATEX :=
  { cbSize := format.cbSize
    nAvgBytesPerSec := format.nAvgBytesPerSec
    nBlockAlign := format.nBlockAlign
    nChannels := format.nChannels
    nSamplesPerSec := format.nSamplesPerSec
    wBitsPerSample := format.wBitsPerSample
    wFormatTag := format.wFormatTag }

/-- The frame size computed by `PumpThread`:
`samplesPerSec / framesPerSec * bytesPerSample` in `unsigned int`. -/
def bytesPerFrame (waveformat : WAVEFORMATEX) : Nat :=
  let bytesPerSample := waveformat.wBitsPerSample / 8
  let samplesPerSec := waveformat.nSamplesPerSec
  let framesPerSec := 10
  (samplesPerSec / framesPerSec * bytesPerSample) % UINT_MOD

/-- The locals right after `auto data = SpxAllocSharedAudioBuffer(bytesPerFrame)`
before the loop: buffer number 0, held by `data` alone. -/
def Locals.first (size : Nat) (trace : List Event) : Locals :=
  { bytesPerFrame := size
    data := 0
    useCount := 1
    allocated := 1
    trace := trace ++ [Event.Alloc 0 size] }

/-- The part of `PumpThread` before the loop: the format is fetched and handed
to the processor, then the sample size is checked, then the first buffer is
allocated. On the exception the calls made so far come back with it. -/
def negotiate (reader : AudioInputStream) : Except (SPXHR × List Event) Locals :=
  let waveformat := toWAVEFORMATEX reader.format
  let trace := [Event.SetFormat (some waveformat)]
  if waveformat.wBitsPerSample % 8 ≠ 0 then
    Except.error (SPXHR.SPXERR_UNSUPPORTED_FORMAT, trace)
  else
    let size := bytesPerFrame waveformat
    Except.ok (Locals.first size trace)

/-- The assignment `data = SpxAllocSharedAudioBuffer(bytesPerFrame)` inside the
loop: `data` drops the old buffer and is the only holder of the new one. -/
def Locals.realloc (w : Locals) : Locals :=
  { w with
    data := w.allocated
    useCount := 1
    allocated := w.allocated + 1
    trace := w.trace ++ [Event.Alloc w.allocated w.bytesPerFrame] }

/-- One pass through the loop body as far as the locals go: the buffer check,
`Read`, `ProcessAudio`; the processor keeping the pointer adds a holder. -/
def Locals.frame (w : Locals) (cbRead : Nat) (kept : Bool) : Locals :=
  let w1 := if w.useCount > 1 then w.realloc else w
  { w1 with
    useCount := if kept then w1.useCount + 1 else w1.useCount
    trace := w1.trace ++
      [Event.Read w1.data w1.bytesPerFrame w1.useCount, Event.ProcessAudio w1.data cbRead] }

/-- The loop `while (checkAndChangeState()) { ... }` of `PumpThread`, with a
step budget; `k` counts the passes made so far. A `StopPump` of the
controlling caller that lands before this check has run its locked part. -/
def pumpLoop (env : Env) : Nat → Nat → CSpxStreamPump → Locals → Status × CSpxStreamPump × Locals
  | 0, _, p, w => (Status.Running, p, w)
  | fuel + 1, k, p, w =>
    let p0 := if env.stops k then (StopPump p).pump else p
    let c := checkAndChangeState p0
    if c.1 then
      let cbRead := env.read k
      let w1 := w.frame cbRead (env.keeps k)
      let p1 := if cbRead = 0 then requestIdle c.2 else c.2
      pumpLoop env fuel (k + 1) p1 w1
    else
      (Status.Returned, c.2, w)

/-- The thread function `PumpThread`. -/
def PumpThread (env : Env) (fuel : Nat) (p : CSpxStreamPump) : Run :=
  match p.m_streamReader with
  | none => { status := Status.NullReader, pump := p, trace := [] }
  | some reader =>
    match negotiate reader with
    | Except.error (hr, trace) => { status := Status.Threw hr, pump := p, trace := trace }
    | Except.ok w =>
      match pumpLoop env fuel 0 p w with
      | (Status.Returned, p1, w1) =>
        { status := Status.Returned, pump := p1, trace := w1.trace ++ [Event.SetFormat none] }
      | (st, p1, w1) => { status := st, pump := p1, trace := w1.trace }

/-! ## One controlling caller interleaved with the pump thread -/

/-- Where the controlling caller is: between calls, or blocked in the
`m_cv.wait` of `StartPump` or of `StopPump`. -/
inductive Caller where
  | Ready
  | InStartPump
  | InStopPump
  deriving DecidableEq, Repr

/-- Where the pump thread is: not running (never started, or past its last
`checkAndChangeState`, after which it touches no member), before the format
negotiation, before a `checkAndChangeState`, inside the loop body, or gone by
the exception. -/
inductive Worker where
  | NotRunning
  | AtNegotiation
  | AtCheck
  | InBody
  | Threw
  deriving DecidableEq, Repr

/-- The controller together with its caller and its pump thread. -/
structure System where
  pump : CSpxStreamPump
  caller : Caller
  worker : Worker
  deriving DecidableEq, Repr

/-- One atomic step of the system: a controller call up to its return or its
wait, the return of a blocked call, or one block of the pump thread. -/
inductive Step where
  | SetAudioStream (reader : Option AudioInputStream)
  | GetFormat
  | SetFormat
  | StartPump
  | PausePump
  | StopPump
  | GetState
  | Wake
  | Negotiate
  | Check
  | Frame (cbRead : Nat)
  deriving DecidableEq, Repr

/-- The freshly constructed controller, nobody calling, no thread. -/
def System.init : System :=
  { pump := new, caller := Caller.Ready, worker := Worker.NotRunning }

/-- The system after the caller made a call whose locked part did `c`;
`blocked` is where the caller is if the call waits. -/
def System.afterCall (s : System) (c : Call) (blocked : Caller) : System :=
  { pump := c.pump
    caller := if c.waits then blocked else Caller.Ready
    worker := if c.spawned then Worker.AtNegotiation else s.worker }

/-- The step function: `none` when the step cannot be taken in `s` (the caller
is blocked, the wait predicate is false, the thread is elsewhere). -/
def System.step (s : System) : Step → Option System
  | Step.SetAudioStream reader =>
    if s.caller = Caller.Ready then
      some (s.afterCall (SetAudioStream reader s.pump) Caller.Ready) else none
  | Step.GetFormat => if s.caller = Caller.Ready then some s else none
  | Step.SetFormat =>
    if s.caller = Caller.Ready then some (s.afterCall (SetFormat s.pump) Caller.Ready) else none
  | Step.StartPump =>
    if s.caller = Caller.Ready then
      some (s.afterCall (StartPump s.pump) Caller.InStartPump) else none
  | Step.PausePump =>
    if s.caller = Caller.Ready then some (s.afterCall (PausePump s.pump) Caller.Ready) else none
  | Step.StopPump =>
    if s.caller = Caller.Ready then
      some (s.afterCall (StopPump s.pump) Caller.InStopPump) else none
  | Step.GetState => if s.caller = Caller.Ready then some s else none
  | Step.Wake =>
    match s.caller with
    | Caller.Ready => none
    | Caller.InStartPump =>
      if startPumpMayReturn s.pump then some { s with caller := Caller.Ready } else none
    | Caller.InStopPump =>
      if stopPumpMayReturn s.pump then some { s with caller := Caller.Ready } else none
  | Step.Negotiate =>
    match s.worker, s.pump.m_streamReader with
    | Worker.AtNegotiation, some reader =>
      match negotiate reader with
      | Except.error _ => some { s with worker := Worker.Threw }
      | Except.ok _ => some { s with worker := Worker.AtCheck }
    | _, _ => none
  | Step.Check =>
    if s.worker = Worker.AtCheck then
      let c := checkAndChangeState s.pump
      some { s with pump := c.2, worker := if c.1 then Worker.InBody else Worker.NotRunning }
    else none
  | Step.Frame cbRead =>
    if s.worker = Worker.InBody then
      some { s with
        pump := if cbRead = 0 then requestIdle s.pump else s.pump
        worker := Worker.AtCheck }
    else none

/-- The system after a list of steps, `none` if one of them cannot be taken. -/
def System.run (s : System) : List Step → Option System
  | [] => some s
  | a :: rest =>
    match s.step a with
    | none => none
    | some s1 => s1.run rest

/-! ## Reading a trace -/

/-- The locals after `n` passes through the loop body, the first of them being
pass number `k`. -/
def Locals.frames (env : Env) (w : Locals) (k : Nat) : Nat → Locals
  | 0 => w
  | n + 1 => (w.frame (env.read k) (env.keeps k)).frames env (k + 1) n

/-- The `ProcessAudio` calls of a trace, oldest first: buffer and `cbRead`. -/
def processAudioCalls (trace : List Event) : List (Nat × Nat) :=
  trace.filterMap fun e =>
    match e with
    | Event.ProcessAudio buffer cbRead => some (buffer, cbRead)
    | _ => none

/-- The allocations of a trace, oldest first: buffer and size. -/
def allocCalls (trace : List Event) : List (Nat × Nat) :=
  trace.filterMap fun e =>
    match e with
    | Event.Alloc buffer size => some (buffer, size)
    | _ => none

/-- The `Read` calls of a trace, oldest first: buffer, `maxBytes`, and the
`use_count()` of the buffer at the call. -/
def readCalls (trace : List Event) : List (Nat × Nat × Nat) :=
  trace.filterMap fun e =>
    match e with
    | Event.Read buffer maxBytes useCount => some (buffer, maxBytes, useCount)
    | _ => none

/-- The `SetFormat` calls of a trace, oldest first. -/
def setFormatCalls (trace : List Event) : List (Option WAVEFORMATEX) :=
  trace.filterMap fun e =>
    match e with
    | Event.SetFormat pformat => some pformat
    | _ => none

/-! ## Invariant of the interleaved system -/

/-- The steps made by the pump thread. -/
def Step.isWorker : Step → Bool
  | Step.Negotiate => true
  | Step.Check => true
  | Step.Frame _ => true
  | _ => false

/-- The thread exists but has not yet made its first `checkAndChangeState`: the
caller is still blocked in the `StartPump` that created it. -/
def System.beforeFirstCheck (s : System) : Prop :=
  s.pump.m_thread = true ∧ s.pump.m_streamReader ≠ none ∧ s.pump.m_state = State.Idle ∧
  s.pump.m_stateRequested = State.Processing ∧ s.caller = Caller.InStartPump

/-- The thread has adopted `Processing` and not yet left the loop. -/
def System.pumping (s : System) : Prop :=
  s.pump.m_thread = true ∧ s.pump.m_streamReader ≠ none ∧ s.pump.m_state = State.Processing ∧
  (s.pump.m_stateRequested = State.Processing ∨ s.pump.m_stateRequested = State.Idle) ∧
  (s.caller = Caller.InStopPump → s.pump.m_stateRequested = State.Idle)

/-- No thread touches the members: the handle is not joinable, the current
state is `NoInput` without a source and `Idle` with one, the requested state
is `NoInput` or `Idle`, and a caller still blocked finds both states `Idle`. -/
def System.atRest (s : System) : Prop :=
  s.pump.m_thread = false ∧
  (s.pump.m_streamReader = none ∧ s.pump.m_state = State.NoInput ∨
    s.pump.m_streamReader ≠ none ∧ s.pump.m_state = State.Idle) ∧
  (s.pump.m_stateRequested = State.NoInput ∨ s.pump.m_stateRequested = State.Idle) ∧
  (s.caller ≠ Caller.Ready →
    s.pump.m_state = State.Idle ∧ s.pump.m_stateRequested = State.Idle)

/-- The invariant of the system, by the place of the pump thread. -/
def System.Inv (s : System) : Prop :=
  match s.worker with
  | Worker.NotRunning => s.atRest
  | Worker.AtNegotiation => s.beforeFirstCheck
  | Worker.Threw => s.beforeFirstCheck
  | Worker.AtCheck => s.beforeFirstCheck ∨ s.pumping
  | Worker.InBody => s.pumping

/-- Some `SetAudioStream` among `steps`, taken from the fresh system, succeeded
and no `checkAndChangeState` of the pump thread came after it. -/
def attachedSince (steps : List Step) : Prop :=
  ∃ (pre : List Step) (reader : Option AudioInputStream) (post : List Step) (s0 : System),
    steps = pre ++ Step.SetAudioStream reader :: post ∧
    System.init.run pre = some s0 ∧
    (SetAudioStream reader s0.pump).thrown = none ∧
    Step.Check ∉ post

/-! ## Concrete readers, controllers and environments -/

/-- The reader of the end-to-end scenario: 16-bit, 16000 Hz, mono PCM. -/
def pcm16k : AudioInputStream :=
  { handle := 1
    format :=
      { wFormatTag := 1
        nChannels := 1
        nSamplesPerSec := 16000
        nAvgBytesPerSec := 32000
        nBlockAlign := 2
        wBitsPerSample := 16
        cbSize := 0 } }

/-- A reader whose samples are 12 bits wide. -/
def pcm12bit : AudioInputStream :=
  { handle := 2
    format :=
      { wFormatTag := 1
        nChannels := 1
        nSamplesPerSec := 16000
        nAvgBytesPerSec := 24000
        nBlockAlign := 2
        wBitsPerSample := 12
        cbSize := 0 } }

/-- A reader at the top of the sample-rate field with 88-bit samples. -/
def wideFormat : AudioInputStream :=
  { handle := 3
    format :=
      { wFormatTag := 1
        nChannels := 1
        nSamplesPerSec := 4294967290
        nAvgBytesPerSec := 0
        nBlockAlign := 11
        wBitsPerSample := 88
        cbSize := 0 } }

/-- A freshly constructed controller after `SetAudioStream(reader)`. -/
def attached (reader : AudioInputStream) : CSpxStreamPump :=
  (SetAudioStream (some reader) new).pump

/-- The controller a pump thread started by `StartPump` on `attached reader`
finds. -/
def started (reader : AudioInputStream) : CSpxStreamPump :=
  (StartPump (attached reader)).pump

/-- Five frames of 3200 bytes, then end of stream; the processor keeps no
buffer; nobody calls `StopPump`. -/
def fiveFrames : Env :=
  { read := fun k => if k < 5 then 3200 else 0
    keeps := fun _ => false
    stops := fun _ => false }

/-- The same stream with a processor that keeps every buffer. -/
def fiveFramesKept : Env :=
  { read := fun k => if k < 5 then 3200 else 0
    keeps := fun _ => true
    stops := fun _ => false }

/-- An endless stream of 3200-byte frames, stopped by `StopPump` before the
third check. -/
def stoppedEarly : Env :=
  { read := fun _ => 3200
    keeps := fun _ => false
    stops := fun k => decide (k = 2) }

/-- Attach the 16 kHz reader, start, let the thread negotiate and adopt
`Processing`, return from `StartPump`, pump one frame, then read 0 bytes: the
thread has requested `Idle` itself and not yet checked. -/
def untilEndOfStream : List Step :=
  [Step.SetAudioStream (some pcm16k), Step.StartPump, Step.Negotiate, Step.Check, Step.Wake,
    Step.Frame 3200, Step.Check, Step.Frame 0]

/-- The system after `untilEndOfStream`: current state `Processing`, requested
state `Idle`, the thread about to check, the caller between calls. -/
def atEndOfStream : System :=
  { pump :=
      { m_streamReader := some pcm16k
        m_state := State.Processing
        m_stateRequested := State.Idle
        m_thread := true }
    caller := Caller.Ready
    worker := Worker.AtCheck }

/-- Attach the 16 kHz reader, start, let the thread negotiate and adopt
`Processing`, return from `StartPump`: the pump is pumping and nothing else
has been requested. -/
def untilPumping : List Step :=
  [Step.SetAudioStream (some pcm16k), Step.StartPump, Step.Negotiate, Step.Check, Step.Wake]

/-- The system after `untilPumping`: current and requested state `Processing`,
the thread inside the loop body, the caller between calls. -/
def pumpingSystem : System :=
  { pump :=
      { m_streamReader := some pcm16k
        m_state := State.Processing
        m_stateRequested := State.Processing
        m_thread := true }
    caller := Caller.Ready
    worker := Worker.InBody }

/-- The system once the thread has left the loop: both states `Idle`, the
thread detached, the caller between calls. -/
def stoppedSystem : System :=
  { pump :=
      { m_streamReader := some pcm16k
        m_state := State.Idle
        m_stateRequested := State.Idle
        m_thread := false }
    caller := Caller.Ready
    worker := Worker.NotRunning }

/-- The system right after a successful `SetAudioStream(pcm16k)` on the fresh
controller. -/
def attachedSystem : System :=
  { pump := attached pcm16k, caller := Caller.Ready, worker := Worker.NotRunning }

end CSpxStreamPump

namespace CSpxStreamPump

/-! ## Controller calls -/

/-- C1: `SetAudioStream(r)` follows the first matching rule: a non-null `r`
with a source already attached throws `SPXERR_ALREADY_INITIALIZED`; otherwise
a current state `Paused` or `Processing` throws `SPXERR_AUDIO_IS_PUMPING`;
otherwise the call succeeds, the source is `r` and the current state is `Idle`
for a non-null `r` and `NoInput` for null. A call that throws leaves every
member (source, current state, requested state, thread) as it was. -/
theorem SetAudioStream_first_matching_rule (p : CSpxStreamPump)
    (reader : Option AudioInputStream) :
    (reader ≠ none ∧ p.m_streamReader ≠ none →
      (SetAudioStream reader p).thrown = some SPXHR.SPXERR_ALREADY_INITIALIZED) ∧
    (¬(reader ≠ none ∧ p.m_streamReader ≠ none) →
      (p.m_state = State.Paused ∨ p.m_state = State.Processing) →
      (SetAudioStream reader p).thrown = some SPXHR.SPXERR_AUDIO_IS_PUMPING) ∧
    (¬(reader ≠ none ∧ p.m_streamReader ≠ none) →
      ¬(p.m_state = State.Paused ∨ p.m_state = State.Processing) →
      (SetAudioStream reader p).thrown = none ∧
      (SetAudioStream reader p).pump.m_streamReader = reader ∧
      (reader ≠ none → (SetAudioStream reader p).pump.m_state = State.Idle) ∧
      (reader = none → (SetAudioStream reader p).pump.m_state = State.NoInput)) ∧
    ((SetAudioStream reader p).thrown ≠ none →
      (SetAudioStream reader p).pump.m_streamReader = p.m_streamReader ∧
      (SetAudioStream reader p).pump.m_state = p.m_state ∧
      (SetAudioStream reader p).pump.m_stateRequested = p.m_stateRequested ∧
      (SetAudioStream reader p).pump = p) := by
  unfold SetAudioStream
  refine ⟨?_, ?_, ?_, ?_⟩
  · intro h
    simp [h, throwHR]
  · intro h1 h2
    simp only [if_neg h1, if_pos h2, throwHR]
  · intro h1 h2
    rw [if_neg h1, if_neg h2]
    refine ⟨rfl, rfl, ?_, ?_⟩
    · intro h
      simp [returned, h]
    · intro h
      simp [returned, h]
  · intro h
    split_ifs at h ⊢ <;> simp_all [throwHR, returned]

/-- C2: `StartPump` checks in this order and throws for the first that applies:
no source, `SPXERR_UNINITIALIZED`; thread still joinable,
`SPXERR_AUDIO_IS_PUMPING`; current state `NoInput`, `SPXERR_NO_AUDIO_INPUT`;
`Processing`, `SPXERR_AUDIO_IS_PUMPING`; `Paused`, `SPXERR_NOT_IMPL`. A thread
is created exactly when none applies (source attached, thread not joinable,
current state `Idle`), and then only the thread handle and the requested state
(`Processing`) change. A call that throws changes no member and creates no
thread. -/
theorem StartPump_precondition_order (p : CSpxStreamPump) :
    (p.m_streamReader = none →
      (StartPump p).thrown = some SPXHR.SPXERR_UNINITIALIZED) ∧
    (p.m_streamReader ≠ none → p.m_thread = true →
      (StartPump p).thrown = some SPXHR.SPXERR_AUDIO_IS_PUMPING) ∧
    (p.m_streamReader ≠ none → p.m_thread = false → p.m_state = State.NoInput →
      (StartPump p).thrown = some SPXHR.SPXERR_NO_AUDIO_INPUT) ∧
    (p.m_streamReader ≠ none → p.m_thread = false → p.m_state = State.Processing →
      (StartPump p).thrown = some SPXHR.SPXERR_AUDIO_IS_PUMPING) ∧
    (p.m_streamReader ≠ none → p.m_thread = false → p.m_state = State.Paused →
      (StartPump p).thrown = some SPXHR.SPXERR_NOT_IMPL) ∧
    (p.m_streamReader ≠ none → p.m_thread = false → p.m_state = State.Idle →
      (StartPump p).thrown = none ∧ (StartPump p).spawned = true ∧
      (StartPump p).pump.m_stateRequested = State.Processing ∧
      (StartPump p).pump.m_thread = true ∧
      (StartPump p).pump.m_streamReader = p.m_streamReader ∧
      (StartPump p).pump.m_state = p.m_state) ∧
    ((StartPump p).spawned = true ∨ (StartPump p).pump ≠ p →
      p.m_streamReader ≠ none ∧ p.m_thread = false ∧ p.m_state = State.Idle) ∧
    ((StartPump p).thrown ≠ none →
      (StartPump p).pump = p ∧ (StartPump p).spawned = false) := by
  obtain ⟨r, st, rq, th⟩ := p
  unfold StartPump
  cases r <;> cases st <;> cases th <;>
    simp [throwHR, startPumpMayReturn]

/-- C1 on the freshly constructed controller: attaching the 16 kHz reader
succeeds, stores it and makes the current state `Idle`. -/
theorem SetAudioStream_on_fresh :
    (SetAudioStream (some pcm16k) new).thrown = none ∧
    (SetAudioStream (some pcm16k) new).pump.m_streamReader = some pcm16k ∧
    (SetAudioStream (some pcm16k) new).pump.m_state = State.Idle :=
  have h := (SetAudioStream_first_matching_rule new (some pcm16k)).2.2.1
    (by decide) (by decide)
  ⟨h.1, h.2.1, h.2.2.1 (by decide)⟩

/-- C2 on a controller with the 16 kHz reader attached: `StartPump` creates the
thread and requests `Processing`. -/
theorem StartPump_on_attached :
    (StartPump (attached pcm16k)).thrown = none ∧
    (StartPump (attached pcm16k)).spawned = true ∧
    (StartPump (attached pcm16k)).pump.m_stateRequested = State.Processing :=
  have h := (StartPump_precondition_order (attached pcm16k)).2.2.2.2.2.1
    (by decide) (by decide) (by decide)
  ⟨h.1, h.2.1, h.2.2.1⟩

/-- C5 (as the code has it): `StartPump` on a freshly constructed controller
(no source, current state `NoInput`) throws `SPXERR_UNINITIALIZED`, the check
for a missing source coming before the check for `NoInput`; no member changes
and no thread is created. -/
theorem StartPump_fresh_uninitialized :
    (StartPump new).thrown = some SPXHR.SPXERR_UNINITIALIZED ∧
    (StartPump new).pump = new ∧ (StartPump new).spawned = false := by
  decide

/-- C5, the claim as written fails: the error thrown by `StartPump` on a
freshly constructed controller is not `SPXERR_NO_AUDIO_INPUT`. -/
theorem StartPump_fresh_not_no_audio_input :
    new.m_streamReader = none ∧ new.m_state = State.NoInput ∧
    (StartPump new).thrown ≠ some SPXHR.SPXERR_NO_AUDIO_INPUT := by
  decide

end CSpxStreamPump

namespace CSpxStreamPump

/-! ## The loop -/

theorem Locals.frame_bytesPerFrame (w : Locals) (cbRead : Nat) (kept : Bool) :
    (w.frame cbRead kept).bytesPerFrame = w.bytesPerFrame := by
  unfold Locals.frame Locals.realloc
  split_ifs <;> rfl

theorem Locals.frames_bytesPerFrame (env : Env) (n : Nat) :
    ∀ (w : Locals) (k : Nat), (w.frames env k n).bytesPerFrame = w.bytesPerFrame := by
  induction n with
  | zero => intro w k; rfl
  | succ n ih =>
    intro w k
    simp only [Locals.frames]
    rw [ih, Locals.frame_bytesPerFrame]

theorem Locals.frames_succ_last (env : Env) (n : Nat) :
    ∀ (w : Locals) (k : Nat),
      w.frames env k (n + 1) = (w.frames env k n).frame (env.read (k + n)) (env.keeps (k + n)) := by
  induction n with
  | zero => intro w k; rfl
  | succ n ih =>
    intro w k
    have h := ih (w.frame (env.read k) (env.keeps k)) (k + 1)
    have e : k + 1 + n = k + (n + 1) := by omega
    rw [e] at h
    rw [Locals.frames, h]
    rfl

/-- The status of the loop is `Returned` or `Running`, and its locals are those
after some number of passes, at most the budget; at least one pass is made
when the budget is positive and the first check says go on. -/
theorem pumpLoop_frames (env : Env) (fuel : Nat) :
    ∀ (k : Nat) (p : CSpxStreamPump) (w : Locals),
      ∃ n, n ≤ fuel ∧ (pumpLoop env fuel k p w).2.2 = w.frames env k n ∧
        ((pumpLoop env fuel k p w).1 = Status.Returned ∨
          (pumpLoop env fuel k p w).1 = Status.Running) ∧
        (0 < fuel →
          (checkAndChangeState (if env.stops k then (StopPump p).pump else p)).1 = true →
          0 < n) := by
  induction fuel with
  | zero =>
    intro k p w
    exact ⟨0, le_refl _, rfl, Or.inr rfl, fun h => absurd h (lt_irrefl 0)⟩
  | succ fuel ih =>
    intro k p w
    by_cases hc : (checkAndChangeState (if env.stops k then (StopPump p).pump else p)).1 = true
    · simp only [pumpLoop, hc, if_true]
      obtain ⟨n, hn, hw, hs, _⟩ := ih (k + 1)
        (if env.read k = 0 then
          requestIdle (checkAndChangeState (if env.stops k then (StopPump p).pump else p)).2
        else (checkAndChangeState (if env.stops k then (StopPump p).pump else p)).2)
        (w.frame (env.read k) (env.keeps k))
      exact ⟨n + 1, by omega, hw, hs, fun _ _ => Nat.succ_pos n⟩
    · simp only [pumpLoop, hc]
      exact ⟨0, by omega, rfl, Or.inl rfl, fun _ h => absurd h Bool.false_ne_true⟩

end CSpxStreamPump

namespace CSpxStreamPump

/-! ## Traces of the loop body -/

theorem processAudioCalls_append (a b : List Event) :
    processAudioCalls (a ++ b) = processAudioCalls a ++ processAudioCalls b := by
  simp [processAudioCalls, List.filterMap_append]

theorem allocCalls_append (a b : List Event) :
    allocCalls (a ++ b) = allocCalls a ++ allocCalls b := by
  simp [allocCalls, List.filterMap_append]

theorem readCalls_append (a b : List Event) :
    readCalls (a ++ b) = readCalls a ++ readCalls b := by
  simp [readCalls, List.filterMap_append]

theorem setFormatCalls_append (a b : List Event) :
    setFormatCalls (a ++ b) = setFormatCalls a ++ setFormatCalls b := by
  simp [setFormatCalls, List.filterMap_append]

/-- The events one pass through the loop body adds to the trace. -/
theorem Locals.frame_trace (w : Locals) (cbRead : Nat) (kept : Bool) :
    (w.frame cbRead kept).trace =
      w.trace ++
        ((if w.useCount > 1 then [Event.Alloc w.allocated w.bytesPerFrame] else []) ++
          [Event.Read (if w.useCount > 1 then w.allocated else w.data) w.bytesPerFrame
              (if w.useCount > 1 then 1 else w.useCount),
            Event.ProcessAudio (if w.useCount > 1 then w.allocated else w.data) cbRead]) := by
  unfold Locals.frame Locals.realloc
  split_ifs <;> simp

theorem Locals.frame_processAudioCalls (w : Locals) (cbRead : Nat) (kept : Bool) :
    processAudioCalls (w.frame cbRead kept).trace =
      processAudioCalls w.trace ++
        [(if w.useCount > 1 then w.allocated else w.data, cbRead)] := by
  rw [Locals.frame_trace, processAudioCalls_append]
  split_ifs <;> simp [processAudioCalls, List.filterMap_cons]

theorem Locals.frame_setFormatCalls (w : Locals) (cbRead : Nat) (kept : Bool) :
    setFormatCalls (w.frame cbRead kept).trace = setFormatCalls w.trace := by
  rw [Locals.frame_trace, setFormatCalls_append]
  split_ifs <;> simp [setFormatCalls, List.filterMap_cons]

theorem Locals.frame_readCalls (w : Locals) (cbRead : Nat) (kept : Bool) :
    readCalls (w.frame cbRead kept).trace =
      readCalls w.trace ++
        [(if w.useCount > 1 then w.allocated else w.data, w.bytesPerFrame,
          if w.useCount > 1 then 1 else w.useCount)] := by
  rw [Locals.frame_trace, readCalls_append]
  split_ifs <;> simp [readCalls, List.filterMap_cons]

theorem Locals.frame_allocCalls (w : Locals) (cbRead : Nat) (kept : Bool) :
    allocCalls (w.frame cbRead kept).trace =
      allocCalls w.trace ++
        (if w.useCount > 1 then [(w.allocated, w.bytesPerFrame)] else []) := by
  rw [Locals.frame_trace, allocCalls_append]
  split_ifs <;> simp [allocCalls, List.filterMap_cons]

/-- The byte counts handed to `ProcessAudio` over `n` passes are the values the
`Read` calls returned, in order. -/
theorem Locals.frames_cbReads (env : Env) (n : Nat) :
    ∀ (w : Locals) (k : Nat),
      (processAudioCalls (w.frames env k n).trace).map Prod.snd =
        (processAudioCalls w.trace).map Prod.snd ++ (List.range' k n).map env.read := by
  induction n with
  | zero => intro w k; simp [Locals.frames]
  | succ n ih =>
    intro w k
    rw [Locals.frames, ih, Locals.frame_processAudioCalls, List.range'_succ]
    simp

/-- The loop body never calls `SetFormat`. -/
theorem Locals.frames_setFormatCalls (env : Env) (n : Nat) :
    ∀ (w : Locals) (k : Nat),
      setFormatCalls (w.frames env k n).trace = setFormatCalls w.trace := by
  induction n with
  | zero => intro w k; rfl
  | succ n ih =>
    intro w k
    rw [Locals.frames, ih, Locals.frame_setFormatCalls]

/-- The trace after `n` passes extends the trace before them by events none of
which is a `SetFormat`. -/
theorem Locals.frames_trace_extends (env : Env) (n : Nat) :
    ∀ (w : Locals) (k : Nat),
      ∃ tail, (w.frames env k n).trace = w.trace ++ tail ∧ setFormatCalls tail = [] := by
  induction n with
  | zero => intro w k; exact ⟨[], by simp [Locals.frames], rfl⟩
  | succ n ih =>
    intro w k
    obtain ⟨tail, ht, hs⟩ := ih (w.frame (env.read k) (env.keeps k)) (k + 1)
    rw [Locals.frames, ht, Locals.frame_trace, List.append_assoc]
    refine ⟨_, rfl, ?_⟩
    rw [setFormatCalls_append, hs]
    split_ifs <;> simp [setFormatCalls, List.filterMap_cons]

/-- Without a `StopPump`, with the requested state `Processing`, `n` reads of a
positive byte count and then a read of 0, the loop makes `n + 1` passes and
returns with both states `Idle` and the thread detached. -/
theorem pumpLoop_end_of_stream (env : Env) (hstops : ∀ k, env.stops k = false) (n : Nat) :
    ∀ (k : Nat) (p : CSpxStreamPump) (w : Locals) (fuel : Nat),
      p.m_stateRequested = State.Processing →
      (∀ j, j < n → 0 < env.read (k + j)) → env.read (k + n) = 0 → n + 2 ≤ fuel →
      pumpLoop env fuel k p w =
        (Status.Returned,
          { p with m_state := State.Idle, m_stateRequested := State.Idle, m_thread := false },
          w.frames env k (n + 1)) := by
  induction n with
  | zero =>
    intro k p w fuel hreq _ hzero hfuel
    obtain ⟨f, rfl⟩ : ∃ f, fuel = f + 2 := ⟨fuel - 2, by omega⟩
    obtain ⟨r, st, rq, th⟩ := p
    simp only at hreq
    subst hreq
    simp only [Nat.add_zero] at hzero
    cases st <;>
      simp [pumpLoop, hstops, checkAndChangeState, requestIdle, hzero, Locals.frames]
  | succ n ih =>
    intro k p w fuel hreq hpos hzero hfuel
    obtain ⟨f, rfl⟩ : ∃ f, fuel = f + 1 := ⟨fuel - 1, by omega⟩
    have h0 : env.read k ≠ 0 := by
      have := hpos 0 (by omega)
      simp only [Nat.add_zero] at this
      omega
    have hpos1 : ∀ j, j < n → 0 < env.read (k + 1 + j) := by
      intro j hj
      have := hpos (j + 1) (by omega)
      have e : k + 1 + j = k + (j + 1) := by omega
      rw [e]
      exact this
    have hzero1 : env.read (k + 1 + n) = 0 := by
      have e : k + 1 + n = k + (n + 1) := by omega
      rw [e]
      exact hzero
    obtain ⟨r, st, rq, th⟩ := p
    simp only at hreq
    subst hreq
    have key := ih (k + 1)
      { m_streamReader := r, m_state := State.Processing,
        m_stateRequested := State.Processing, m_thread := th }
      (w.frame (env.read k) (env.keeps k)) f rfl hpos1 hzero1 (by omega)
    cases st <;>
      simp [pumpLoop, hstops, checkAndChangeState, h0, key, Locals.frames]

end CSpxStreamPump

namespace CSpxStreamPump

/-! ## Runs of the pump thread -/

/-- What a successful `StartPump` leaves: the members of `p` with the thread
joinable and the requested state `Processing`; `p` had a source, no joinable
thread and the current state `Idle`. -/
theorem StartPump_ok (p : CSpxStreamPump) (h : (StartPump p).thrown = none) :
    p.m_streamReader ≠ none ∧ p.m_thread = false ∧ p.m_state = State.Idle ∧
    (StartPump p).pump = { p with m_thread := true, m_stateRequested := State.Processing } := by
  obtain ⟨r, st, rq, th⟩ := p
  unfold StartPump at h ⊢
  cases r <;> cases st <;> cases th <;> simp_all [throwHR]

/-- The run of `PumpThread` on a reader whose sample size is a multiple of 8, in
terms of the loop. -/
theorem PumpThread_supported (env : Env) (fuel : Nat) (p : CSpxStreamPump)
    (reader : AudioInputStream) (hreader : p.m_streamReader = some reader)
    (hfmt : reader.format.wBitsPerSample % 8 = 0) :
    PumpThread env fuel p =
      match pumpLoop env fuel 0 p
          (Locals.first (bytesPerFrame (toWAVEFORMATEX reader.format))
            [Event.SetFormat (some (toWAVEFORMATEX reader.format))]) with
      | (Status.Returned, p1, w1) =>
        { status := Status.Returned, pump := p1, trace := w1.trace ++ [Event.SetFormat none] }
      | (st, p1, w1) => { status := st, pump := p1, trace := w1.trace } := by
  have hn : negotiate reader =
      Except.ok (Locals.first (bytesPerFrame (toWAVEFORMATEX reader.format))
        [Event.SetFormat (some (toWAVEFORMATEX reader.format))]) := by
    unfold negotiate
    have : (toWAVEFORMATEX reader.format).wBitsPerSample % 8 = 0 := hfmt
    simp [this]
  unfold PumpThread
  rw [hreader]
  simp only [hn]

/-- The run of `PumpThread` on a reader whose sample size is not a multiple of
8: `SetFormat` with the descriptor, then the exception. -/
theorem PumpThread_unsupported (env : Env) (fuel : Nat) (p : CSpxStreamPump)
    (reader : AudioInputStream) (hreader : p.m_streamReader = some reader)
    (hfmt : reader.format.wBitsPerSample % 8 ≠ 0) :
    PumpThread env fuel p =
      { status := Status.Threw SPXHR.SPXERR_UNSUPPORTED_FORMAT
        pump := p
        trace := [Event.SetFormat (some (toWAVEFORMATEX reader.format))] } := by
  have hn : negotiate reader =
      Except.error (SPXHR.SPXERR_UNSUPPORTED_FORMAT,
        [Event.SetFormat (some (toWAVEFORMATEX reader.format))]) := by
    unfold negotiate
    have : (toWAVEFORMATEX reader.format).wBitsPerSample % 8 ≠ 0 := hfmt
    simp [this]
  unfold PumpThread
  rw [hreader]
  simp only [hn]

/-- C3 (as the code has it): a reader with a supported format returns a
positive byte count from its first `N` reads and 0 from the next; the run is
started by `StartPump` and nobody calls `StopPump`. Then with a budget of at
least `N + 2` checks the thread returns; it has made exactly `N + 1`
`ProcessAudio` calls, whose byte counts are those of the `N + 1` reads in
order (so the last one is 0); the trace starts with `SetFormat` of the
descriptor, ends with `SetFormat(nullptr)`, and these are its only two
`SetFormat` calls; the current state (what `GetState` returns) is `Idle`. -/
theorem PumpThread_end_of_stream (N : Nat) (env : Env) (p : CSpxStreamPump)
    (reader : AudioInputStream) (fuel : Nat)
    (hreader : p.m_streamReader = some reader)
    (hfmt : reader.format.wBitsPerSample % 8 = 0)
    (hstart : (StartPump p).thrown = none)
    (hstops : ∀ k, env.stops k = false)
    (hpos : ∀ k, k < N → 0 < env.read k) (hzero : env.read N = 0)
    (hfuel : N + 2 ≤ fuel) :
    (PumpThread env fuel (StartPump p).pump).status = Status.Returned ∧
    (processAudioCalls (PumpThread env fuel (StartPump p).pump).trace).length = N + 1 ∧
    (processAudioCalls (PumpThread env fuel (StartPump p).pump).trace).map Prod.snd =
      (List.range (N + 1)).map env.read ∧
    (∃ body, (PumpThread env fuel (StartPump p).pump).trace =
        Event.SetFormat (some (toWAVEFORMATEX reader.format)) :: body ++ [Event.SetFormat none] ∧
      setFormatCalls body = []) ∧
    setFormatCalls (PumpThread env fuel (StartPump p).pump).trace =
      [some (toWAVEFORMATEX reader.format), none] ∧
    GetState (PumpThread env fuel (StartPump p).pump).pump = State.Idle := by
  obtain ⟨_, _, _, hp⟩ := StartPump_ok p hstart
  have hr1 : (StartPump p).pump.m_streamReader = some reader := by rw [hp]; exact hreader
  have hrun := PumpThread_supported env fuel (StartPump p).pump reader hr1 hfmt
  generalize hw0 : Locals.first (bytesPerFrame (toWAVEFORMATEX reader.format))
    [Event.SetFormat (some (toWAVEFORMATEX reader.format))] = w0 at hrun
  have hloop := pumpLoop_end_of_stream env hstops N 0 (StartPump p).pump w0 fuel
    (by rw [hp]) (by simpa using hpos) (by simpa using hzero) hfuel
  rw [hloop] at hrun
  simp only at hrun
  rw [hrun]
  have hfirst : processAudioCalls w0.trace = [] := by
    rw [← hw0]
    simp [Locals.first, processAudioCalls, List.filterMap_cons]
  have hcb := Locals.frames_cbReads env (N + 1) w0 0
  rw [hfirst, ← List.range_eq_range'] at hcb
  simp only [List.map_nil, List.nil_append] at hcb
  have hpa : processAudioCalls ((w0.frames env 0 (N + 1)).trace ++ [Event.SetFormat none]) =
      processAudioCalls (w0.frames env 0 (N + 1)).trace := by
    rw [processAudioCalls_append]
    simp [processAudioCalls, List.filterMap_cons]
  obtain ⟨tail, ht, hs⟩ := Locals.frames_trace_extends env (N + 1) w0 0
  refine ⟨rfl, ?_, ?_, ?_, ?_, rfl⟩
  · simp only [hpa]
    have := congrArg List.length hcb
    simpa using this
  · simp only [hpa]
    exact hcb
  · refine ⟨Event.Alloc 0 (bytesPerFrame (toWAVEFORMATEX reader.format)) :: tail, ?_, ?_⟩
    · simp only [ht]
      rw [← hw0]
      simp [Locals.first]
    · have h1 : setFormatCalls [Event.Alloc 0 (bytesPerFrame (toWAVEFORMATEX reader.format))] =
          [] := by
        simp [setFormatCalls, List.filterMap_cons]
      have h2 := setFormatCalls_append
        [Event.Alloc 0 (bytesPerFrame (toWAVEFORMATEX reader.format))] tail
      rw [h1, hs] at h2
      simpa using h2
  · simp only [setFormatCalls_append, Locals.frames_setFormatCalls]
    rw [← hw0]
    simp [Locals.first, setFormatCalls, List.filterMap_cons]

/-- C3, the claim as written fails: on the five-frame stream of 3200-byte
frames (five positive reads, then 0) the run makes six `ProcessAudio` calls,
not five, the sixth with 0 bytes, before `SetFormat(nullptr)`. -/
theorem PumpThread_five_frames_six_calls :
    (StartPump (attached pcm16k)).thrown = none ∧
    (∀ k, k < 5 → 0 < fiveFrames.read k) ∧ fiveFrames.read 5 = 0 ∧
    (PumpThread fiveFrames 10 (started pcm16k)).status = Status.Returned ∧
    (processAudioCalls (PumpThread fiveFrames 10 (started pcm16k)).trace).map Prod.snd =
      [3200, 3200, 3200, 3200, 3200, 0] ∧
    (processAudioCalls (PumpThread fiveFrames 10 (started pcm16k)).trace).length ≠ 5 := by
  refine ⟨by decide, by decide, by decide, by decide, by decide, by decide⟩

/-- C3, the five-frame scenario as an instance of the general statement. -/
theorem PumpThread_end_of_stream_five_frames :
    (PumpThread fiveFrames 10 (started pcm16k)).status = Status.Returned ∧
    (processAudioCalls (PumpThread fiveFrames 10 (started pcm16k)).trace).length = 6 ∧
    GetState (PumpThread fiveFrames 10 (started pcm16k)).pump = State.Idle :=
  have h := PumpThread_end_of_stream 5 fiveFrames (attached pcm16k) pcm16k 10
    (by decide) (by decide) (by decide) (fun _ => rfl) (by decide) (by decide) (by decide)
  ⟨h.1, h.2.1, h.2.2.2.2.2⟩

end CSpxStreamPump

namespace CSpxStreamPump

/-! ## Sizes, buffers and holder counts -/

/-- The trace of a run on a supported format: the events of some number `n`
of passes after the first allocation, followed by `SetFormat(nullptr)` exactly
when the thread has returned; `n` is positive when the budget is and the
first check says go on. -/
theorem PumpThread_supported_trace (env : Env) (fuel : Nat) (p : CSpxStreamPump)
    (reader : AudioInputStream) (hreader : p.m_streamReader = some reader)
    (hfmt : reader.format.wBitsPerSample % 8 = 0) :
    ∃ n, n ≤ fuel ∧
      (0 < fuel →
        (checkAndChangeState (if env.stops 0 then (StopPump p).pump else p)).1 = true → 0 < n) ∧
      (((PumpThread env fuel p).status = Status.Returned ∧
          (PumpThread env fuel p).trace =
            ((Locals.first (bytesPerFrame (toWAVEFORMATEX reader.format))
              [Event.SetFormat (some (toWAVEFORMATEX reader.format))]).frames env 0 n).trace ++
              [Event.SetFormat none]) ∨
        ((PumpThread env fuel p).status = Status.Running ∧
          (PumpThread env fuel p).trace =
            ((Locals.first (bytesPerFrame (toWAVEFORMATEX reader.format))
              [Event.SetFormat (some (toWAVEFORMATEX reader.format))]).frames env 0 n).trace)) := by
  have hrun := PumpThread_supported env fuel p reader hreader hfmt
  generalize Locals.first (bytesPerFrame (toWAVEFORMATEX reader.format))
    [Event.SetFormat (some (toWAVEFORMATEX reader.format))] = w0 at hrun ⊢
  obtain ⟨n, hn, hw, hs, hpos⟩ := pumpLoop_frames env fuel 0 p w0
  refine ⟨n, hn, hpos, ?_⟩
  rcases hl : pumpLoop env fuel 0 p w0 with ⟨st, p1, w1⟩
  rw [hl] at hrun hw hs
  simp only at hw hs
  subst hw
  rcases hs with rfl | rfl
  · left
    simp only at hrun
    rw [hrun]
    exact ⟨rfl, rfl⟩
  · right
    simp only at hrun
    rw [hrun]
    exact ⟨rfl, rfl⟩

/-- Every allocation made in the loop has the size `bytesPerFrame`. -/
theorem Locals.frames_alloc_size (env : Env) (n : Nat) :
    ∀ (w : Locals) (k : Nat) (a : Nat × Nat), a ∈ allocCalls (w.frames env k n).trace →
      a ∈ allocCalls w.trace ∨ a.2 = w.bytesPerFrame := by
  induction n with
  | zero => intro w k a h; exact Or.inl h
  | succ n ih =>
    intro w k a h
    rw [Locals.frames] at h
    rcases ih _ _ a h with h1 | h1
    · rw [Locals.frame_allocCalls, List.mem_append] at h1
      rcases h1 with h1 | h1
      · exact Or.inl h1
      · right
        split_ifs at h1
        · simp only [List.mem_singleton] at h1
          rw [h1]
        · simp at h1
    · right
      rw [h1, Locals.frame_bytesPerFrame]

/-- Every `Read` made in the loop asks for at most `bytesPerFrame` bytes, into a
buffer that has no holder besides `data`. -/
theorem Locals.frames_read_size (env : Env) (n : Nat) :
    ∀ (w : Locals) (k : Nat) (c : Nat × Nat × Nat), c ∈ readCalls (w.frames env k n).trace →
      c ∈ readCalls w.trace ∨ (c.2.1 = w.bytesPerFrame ∧ c.2.2 ≤ 1) := by
  induction n with
  | zero => intro w k c h; exact Or.inl h
  | succ n ih =>
    intro w k c h
    rw [Locals.frames] at h
    rcases ih _ _ c h with h1 | h1
    · rw [Locals.frame_readCalls, List.mem_append] at h1
      rcases h1 with h1 | h1
      · exact Or.inl h1
      · right
        simp only [List.mem_singleton] at h1
        rw [h1]
        refine ⟨rfl, ?_⟩
        simp only
        split_ifs with hu
        · exact le_refl 1
        · omega
    · right
      rw [Locals.frame_bytesPerFrame] at h1
      exact h1

/-- With a processor that keeps no buffer, the loop never allocates: `data`
stays the first buffer and every `ProcessAudio` gets it. -/
theorem Locals.frames_never_kept (env : Env) (hkeeps : ∀ k, env.keeps k = false) (n : Nat) :
    ∀ (w : Locals) (k : Nat), w.useCount ≤ 1 →
      (w.frames env k n).useCount = w.useCount ∧ (w.frames env k n).data = w.data ∧
      allocCalls (w.frames env k n).trace = allocCalls w.trace ∧
      ∀ c ∈ processAudioCalls (w.frames env k n).trace,
        c ∈ processAudioCalls w.trace ∨ c.1 = w.data := by
  induction n with
  | zero =>
    intro w k _
    exact ⟨rfl, rfl, rfl, fun c h => Or.inl h⟩
  | succ n ih =>
    intro w k hu
    have hnot : ¬ w.useCount > 1 := by omega
    have hf1 : (w.frame (env.read k) (env.keeps k)).useCount = w.useCount := by
      simp [Locals.frame, hnot, hkeeps]
    have hf2 : (w.frame (env.read k) (env.keeps k)).data = w.data := by
      simp [Locals.frame, hnot]
    obtain ⟨h1, h2, h3, h4⟩ := ih (w.frame (env.read k) (env.keeps k)) (k + 1) (by omega)
    rw [Locals.frames]
    refine ⟨by rw [h1, hf1], by rw [h2, hf2], ?_, ?_⟩
    · rw [h3, Locals.frame_allocCalls, if_neg hnot, List.append_nil]
    · intro c hc
      rcases h4 c hc with h5 | h5
      · rw [Locals.frame_processAudioCalls, if_neg hnot, List.mem_append] at h5
        rcases h5 with h5 | h5
        · exact Or.inl h5
        · right
          simp only [List.mem_singleton] at h5
          rw [h5]
      · right
        rw [h5, hf2]

/-- With a processor that keeps every buffer, after `n + 1` passes from the
first allocation the buffers allocated are `0, ..., n` and the buffers handed
to `ProcessAudio` are `0, ..., n`, one each. -/
theorem Locals.frames_all_kept (env : Env) (hkeeps : ∀ k, env.keeps k = true)
    (size : Nat) (trace : List Event)
    (ha : allocCalls trace = []) (hp : processAudioCalls trace = []) (n : Nat) :
    ((Locals.first size trace).frames env 0 (n + 1)).useCount = 2 ∧
    ((Locals.first size trace).frames env 0 (n + 1)).allocated = n + 1 ∧
    (allocCalls ((Locals.first size trace).frames env 0 (n + 1)).trace).map Prod.fst =
      List.range (n + 1) ∧
    (processAudioCalls ((Locals.first size trace).frames env 0 (n + 1)).trace).map Prod.fst =
      List.range (n + 1) := by
  induction n with
  | zero =>
    have e : (Locals.first size trace).frames env 0 1 =
        (Locals.first size trace).frame (env.read 0) (env.keeps 0) := rfl
    rw [e, Locals.frame_allocCalls, Locals.frame_processAudioCalls]
    refine ⟨?_, ?_, ?_, ?_⟩
    · simp [Locals.frame, Locals.first, hkeeps]
    · simp [Locals.frame, Locals.first]
    · simp only [Locals.first, allocCalls_append, ha]
      rfl
    · simp only [Locals.first, processAudioCalls_append, hp]
      rfl
  | succ n ih =>
    obtain ⟨h1, h2, h3, h4⟩ := ih
    rw [Locals.frames_succ_last env (n + 1)]
    generalize (Locals.first size trace).frames env 0 (n + 1) = w at h1 h2 h3 h4 ⊢
    have hgt : w.useCount > 1 := by omega
    rw [Locals.frame_allocCalls, Locals.frame_processAudioCalls]
    refine ⟨?_, ?_, ?_, ?_⟩
    · simp [Locals.frame, Locals.realloc, hgt, hkeeps]
    · simp [Locals.frame, Locals.realloc, hgt, h2]
    · rw [if_pos hgt, List.map_append, h3, h2, List.range_succ (n + 1)]
      rfl
    · rw [if_pos hgt, List.map_append, h4, h2, List.range_succ (n + 1)]
      rfl

end CSpxStreamPump

namespace CSpxStreamPump

/-! ## Format negotiation and the end-of-run notification -/

/-- A run on a supported format that has returned: the trace starts with
`SetFormat` of the descriptor, ends with `SetFormat(nullptr)`, and has no other
`SetFormat` call in between. -/
theorem PumpThread_returned_notifications (env : Env) (fuel : Nat) (p : CSpxStreamPump)
    (reader : AudioInputStream) (hreader : p.m_streamReader = some reader)
    (hfmt : reader.format.wBitsPerSample % 8 = 0)
    (hret : (PumpThread env fuel p).status = Status.Returned) :
    ∃ body, (PumpThread env fuel p).trace =
        Event.SetFormat (some (toWAVEFORMATEX reader.format)) :: body ++ [Event.SetFormat none] ∧
      setFormatCalls body = [] := by
  obtain ⟨n, _, _, h⟩ := PumpThread_supported_trace env fuel p reader hreader hfmt
  rcases h with ⟨_, ht⟩ | ⟨hs, _⟩
  · obtain ⟨tail, hx, hy⟩ := Locals.frames_trace_extends env n
      (Locals.first (bytesPerFrame (toWAVEFORMATEX reader.format))
        [Event.SetFormat (some (toWAVEFORMATEX reader.format))]) 0
    refine ⟨Event.Alloc 0 (bytesPerFrame (toWAVEFORMATEX reader.format)) :: tail, ?_, ?_⟩
    · rw [ht, hx]
      simp [Locals.first]
    · have h2 := setFormatCalls_append
        [Event.Alloc 0 (bytesPerFrame (toWAVEFORMATEX reader.format))] tail
      rw [hy] at h2
      simpa [setFormatCalls, List.filterMap_cons] using h2
  · rw [hs] at hret
    exact absurd hret (by decide)

/-- The run on an unsupported format, event by event: on a reader whose
bits-per-sample is not a multiple of 8 the thread leaves by
`SPXERR_UNSUPPORTED_FORMAT` right after `SetFormat` of the descriptor. That
call is the whole trace: nothing is read, nothing is delivered, and
`SetFormat(nullptr)` is never called; the members of the controller stay as the
thread found them. -/
theorem PumpThread_unsupported_format_skips_end_notification (env : Env) (fuel : Nat)
    (p : CSpxStreamPump) (reader : AudioInputStream)
    (hreader : p.m_streamReader = some reader)
    (hfmt : reader.format.wBitsPerSample % 8 ≠ 0) :
    (PumpThread env fuel p).status = Status.Threw SPXHR.SPXERR_UNSUPPORTED_FORMAT ∧
    (PumpThread env fuel p).trace = [Event.SetFormat (some (toWAVEFORMATEX reader.format))] ∧
    Event.SetFormat none ∉ (PumpThread env fuel p).trace ∧
    readCalls (PumpThread env fuel p).trace = [] ∧
    processAudioCalls (PumpThread env fuel p).trace = [] ∧
    (PumpThread env fuel p).pump = p := by
  rw [PumpThread_unsupported env fuel p reader hreader hfmt]
  refine ⟨rfl, rfl, ?_, rfl, rfl, rfl⟩
  simp

/-- C4 (what the code does where the claim fails), at the 12-bit reader with
the run started by `StartPump`: the thread leaves by
`SPXERR_UNSUPPORTED_FORMAT`, the processor gets the descriptor and no
`SetFormat(nullptr)`; the current state is still `Idle`,
the requested state still `Processing`, the thread still joinable, so the
predicate `StartPump` waits for is false. -/
theorem PumpThread_unsupported_format_12bit :
    (PumpThread fiveFrames 10 (started pcm12bit)).status =
      Status.Threw SPXHR.SPXERR_UNSUPPORTED_FORMAT ∧
    setFormatCalls (PumpThread fiveFrames 10 (started pcm12bit)).trace =
      [some (toWAVEFORMATEX pcm12bit.format)] ∧
    Event.SetFormat none ∉ (PumpThread fiveFrames 10 (started pcm12bit)).trace ∧
    (PumpThread fiveFrames 10 (started pcm12bit)).pump.m_state = State.Idle ∧
    (PumpThread fiveFrames 10 (started pcm12bit)).pump.m_stateRequested = State.Processing ∧
    (PumpThread fiveFrames 10 (started pcm12bit)).pump.m_thread = true ∧
    startPumpMayReturn (PumpThread fiveFrames 10 (started pcm12bit)).pump = false :=
  have h := PumpThread_unsupported_format_skips_end_notification fiveFrames 10
    (started pcm12bit) pcm12bit rfl (by decide)
  ⟨h.1, by rw [h.2.1]; rfl, h.2.2.1, by rw [h.2.2.2.2.2]; rfl, by rw [h.2.2.2.2.2]; rfl,
    by rw [h.2.2.2.2.2]; rfl, by rw [h.2.2.2.2.2]; rfl⟩

/-- A run ended by `StopPump`: on the endless stream, with `StopPump` landing
before the third check, the thread makes two `ProcessAudio` calls, then
`SetFormat(nullptr)`, and leaves the current state `Idle`. -/
theorem PumpThread_stopped_early :
    (PumpThread stoppedEarly 10 (started pcm16k)).status = Status.Returned ∧
    (processAudioCalls (PumpThread stoppedEarly 10 (started pcm16k)).trace).map Prod.snd =
      [3200, 3200] ∧
    setFormatCalls (PumpThread stoppedEarly 10 (started pcm16k)).trace =
      [some (toWAVEFORMATEX pcm16k.format), none] ∧
    (PumpThread stoppedEarly 10 (started pcm16k)).trace.getLast? = some (Event.SetFormat none) ∧
    GetState (PumpThread stoppedEarly 10 (started pcm16k)).pump = State.Idle := by
  refine ⟨by decide, by decide, by decide, by decide, by decide⟩

/-! ## Frame size -/

/-- C6 (as the code has it): for a format whose samples-per-second fits its
32-bit field, when bits-per-sample is a multiple of 8 the first
buffer, every later buffer and the `maxBytes` of every `Read` have the size
`(nSamplesPerSec / 10 * (wBitsPerSample / 8)) mod 2^32`, the product being
taken in `unsigned int`; that is the exact product whenever the product is
below `2^32`, in particular whenever bits-per-sample is at most 80. When
bits-per-sample is not a multiple of 8 the run throws
`SPXERR_UNSUPPORTED_FORMAT` with no buffer allocated and no `Read` made. -/
theorem PumpThread_frame_size (env : Env) (fuel : Nat) (p : CSpxStreamPump)
    (reader : AudioInputStream) (hreader : p.m_streamReader = some reader)
    (hsps : reader.format.nSamplesPerSec < UINT_MOD) :
    (reader.format.wBitsPerSample % 8 = 0 →
      (0, (reader.format.nSamplesPerSec / 10 * (reader.format.wBitsPerSample / 8)) % 2 ^ 32) ∈
        allocCalls (PumpThread env fuel p).trace ∧
      (∀ a ∈ allocCalls (PumpThread env fuel p).trace,
        a.2 = (reader.format.nSamplesPerSec / 10 * (reader.format.wBitsPerSample / 8)) % 2 ^ 32) ∧
      (∀ c ∈ readCalls (PumpThread env fuel p).trace,
        c.2.1 = (reader.format.nSamplesPerSec / 10 * (reader.format.wBitsPerSample / 8)) % 2 ^ 32) ∧
      (reader.format.nSamplesPerSec / 10 * (reader.format.wBitsPerSample / 8) < 2 ^ 32 →
        bytesPerFrame (toWAVEFORMATEX reader.format) =
          reader.format.nSamplesPerSec / 10 * (reader.format.wBitsPerSample / 8)) ∧
      (reader.format.wBitsPerSample ≤ 80 →
        bytesPerFrame (toWAVEFORMATEX reader.format) =
          reader.format.nSamplesPerSec / 10 * (reader.format.wBitsPerSample / 8))) ∧
    (reader.format.wBitsPerSample % 8 ≠ 0 →
      (PumpThread env fuel p).status = Status.Threw SPXHR.SPXERR_UNSUPPORTED_FORMAT ∧
      allocCalls (PumpThread env fuel p).trace = [] ∧
      readCalls (PumpThread env fuel p).trace = []) := by
  have hB : bytesPerFrame (toWAVEFORMATEX reader.format) =
      (reader.format.nSamplesPerSec / 10 * (reader.format.wBitsPerSample / 8)) % 2 ^ 32 := rfl
  constructor
  · intro hfmt
    obtain ⟨n, _, _, h⟩ := PumpThread_supported_trace env fuel p reader hreader hfmt
    have hfin : allocCalls [Event.SetFormat none] = [] ∧ readCalls [Event.SetFormat none] = [] :=
      ⟨rfl, rfl⟩
    have ha : allocCalls (PumpThread env fuel p).trace =
        allocCalls ((Locals.first (bytesPerFrame (toWAVEFORMATEX reader.format))
          [Event.SetFormat (some (toWAVEFORMATEX reader.format))]).frames env 0 n).trace := by
      rcases h with ⟨_, ht⟩ | ⟨_, ht⟩
      · rw [ht, allocCalls_append, hfin.1, List.append_nil]
      · rw [ht]
    have hr : readCalls (PumpThread env fuel p).trace =
        readCalls ((Locals.first (bytesPerFrame (toWAVEFORMATEX reader.format))
          [Event.SetFormat (some (toWAVEFORMATEX reader.format))]).frames env 0 n).trace := by
      rcases h with ⟨_, ht⟩ | ⟨_, ht⟩
      · rw [ht, readCalls_append, hfin.2, List.append_nil]
      · rw [ht]
    have ha0 : allocCalls (Locals.first (bytesPerFrame (toWAVEFORMATEX reader.format))
        [Event.SetFormat (some (toWAVEFORMATEX reader.format))]).trace =
        [(0, bytesPerFrame (toWAVEFORMATEX reader.format))] := rfl
    have hr0 : readCalls (Locals.first (bytesPerFrame (toWAVEFORMATEX reader.format))
        [Event.SetFormat (some (toWAVEFORMATEX reader.format))]).trace = [] := rfl
    obtain ⟨tail, hx, _⟩ := Locals.frames_trace_extends env n
      (Locals.first (bytesPerFrame (toWAVEFORMATEX reader.format))
        [Event.SetFormat (some (toWAVEFORMATEX reader.format))]) 0
    refine ⟨?_, ?_, ?_, ?_, ?_⟩
    · rw [ha, hx, allocCalls_append, ha0, ← hB]
      simp
    · intro a hmem
      rw [ha] at hmem
      rcases Locals.frames_alloc_size env n _ _ a hmem with h1 | h1
      · rw [ha0, List.mem_singleton] at h1
        rw [h1, ← hB]
      · rw [h1, ← hB]
        rfl
    · intro c hmem
      rw [hr] at hmem
      rcases Locals.frames_read_size env n _ _ c hmem with h1 | h1
      · rw [hr0] at h1
        simp at h1
      · rw [h1.1, ← hB]
        rfl
    · intro hlt
      rw [hB]
      exact Nat.mod_eq_of_lt hlt
    · intro h80
      rw [hB]
      apply Nat.mod_eq_of_lt
      have h1 : reader.format.nSamplesPerSec / 10 ≤ 429496729 := by
        unfold UINT_MOD at hsps
        omega
      have h2 : reader.format.wBitsPerSample / 8 ≤ 10 := by omega
      calc reader.format.nSamplesPerSec / 10 * (reader.format.wBitsPerSample / 8)
          ≤ 429496729 * 10 := Nat.mul_le_mul h1 h2
        _ < 2 ^ 32 := by norm_num
  · intro hfmt
    rw [PumpThread_unsupported env fuel p reader hreader hfmt]
    exact ⟨rfl, rfl, rfl⟩

/-- C6 at the end-to-end format, 16000 Hz and 16 bits: the first buffer has
3200 bytes and every `Read` of the five-frame run asks for 3200. -/
theorem PumpThread_frame_size_16k :
    (0, 3200) ∈ allocCalls (PumpThread fiveFrames 10 (started pcm16k)).trace ∧
    bytesPerFrame (toWAVEFORMATEX pcm16k.format) = 3200 ∧
    (readCalls (PumpThread fiveFrames 10 (started pcm16k)).trace).map (fun c => c.2.1) =
      [3200, 3200, 3200, 3200, 3200, 3200] :=
  have h := (PumpThread_frame_size fiveFrames 10 (started pcm16k) pcm16k rfl
    (by decide)).1 (by decide)
  ⟨h.1, h.2.2.2.2 (by decide), by decide⟩

/-- C6, the claim as written fails: at 4294967290 Hz with 88-bit samples (both
inside the ranges of their fields, 88 a multiple of 8) the exact product
`(4294967290 / 10) * (88 / 8)` is 4724464019, while the size the thread
allocates and reads with is 429496723. -/
theorem PumpThread_frame_size_wraps :
    wideFormat.format.nSamplesPerSec < UINT_MOD ∧ wideFormat.format.wBitsPerSample < WORD_MOD ∧
    wideFormat.format.wBitsPerSample % 8 = 0 ∧
    wideFormat.format.nSamplesPerSec / 10 * (wideFormat.format.wBitsPerSample / 8) = 4724464019 ∧
    allocCalls (PumpThread fiveFrames 10 (started wideFormat)).trace = [(0, 429496723)] ∧
    (readCalls (PumpThread fiveFrames 10 (started wideFormat)).trace).map (fun c => c.2.1) =
      [429496723, 429496723, 429496723, 429496723, 429496723, 429496723] ∧
    bytesPerFrame (toWAVEFORMATEX wideFormat.format) ≠
      wideFormat.format.nSamplesPerSec / 10 * (wideFormat.format.wBitsPerSample / 8) := by
  refine ⟨by decide, by decide, by decide, by decide, by decide, by decide, by decide⟩

end CSpxStreamPump

namespace CSpxStreamPump

/-! ## Buffer reuse -/

/-- C8 (as the code has it): in a run started by `StartPump`, looked at after
any positive number of checks. If the processor keeps no buffer and the format
passes the sample-size check, exactly one buffer is allocated (number 0) and
every `ProcessAudio` gets that buffer. If the processor keeps every buffer,
the number of buffers allocated equals the number of `ProcessAudio` calls and
no buffer is handed over twice. Whatever the processor does, every `Read` is
made into a buffer with `use_count()` at most 1. -/
theorem PumpThread_buffer_reuse (env : Env) (fuel : Nat) (p : CSpxStreamPump)
    (reader : AudioInputStream) (hreader : p.m_streamReader = some reader)
    (hstart : (StartPump p).thrown = none) (hfuel : 0 < fuel) :
    ((∀ k, env.keeps k = false) → reader.format.wBitsPerSample % 8 = 0 →
      (allocCalls (PumpThread env fuel (StartPump p).pump).trace).length = 1 ∧
      (allocCalls (PumpThread env fuel (StartPump p).pump).trace).map Prod.fst = [0] ∧
      ∀ c ∈ processAudioCalls (PumpThread env fuel (StartPump p).pump).trace, c.1 = 0) ∧
    ((∀ k, env.keeps k = true) →
      (allocCalls (PumpThread env fuel (StartPump p).pump).trace).length =
        (processAudioCalls (PumpThread env fuel (StartPump p).pump).trace).length ∧
      ((processAudioCalls (PumpThread env fuel (StartPump p).pump).trace).map Prod.fst).Nodup) ∧
    (∀ c ∈ readCalls (PumpThread env fuel (StartPump p).pump).trace, c.2.2 ≤ 1) := by
  obtain ⟨_, hth, hst, hp⟩ := StartPump_ok p hstart
  have hr1 : (StartPump p).pump.m_streamReader = some reader := by rw [hp]; exact hreader
  have hgo : (checkAndChangeState
      (if env.stops 0 then (StopPump (StartPump p).pump).pump else (StartPump p).pump)).1 =
      true := by
    rw [hp]
    obtain ⟨r, st, rq, th⟩ := p
    simp only at hst
    subst hst
    cases env.stops 0 <;> simp [StopPump, returned, checkAndChangeState]
  by_cases hfmt : reader.format.wBitsPerSample % 8 = 0
  · obtain ⟨n, _, hpos, h⟩ :=
      PumpThread_supported_trace env fuel (StartPump p).pump reader hr1 hfmt
    have hn : 0 < n := hpos hfuel hgo
    generalize hq : (StartPump p).pump = q at h ⊢
    have hfin : allocCalls [Event.SetFormat none] = [] ∧ readCalls [Event.SetFormat none] = [] ∧
        processAudioCalls [Event.SetFormat none] = [] := ⟨rfl, rfl, rfl⟩
    have ha : allocCalls (PumpThread env fuel q).trace =
        allocCalls ((Locals.first (bytesPerFrame (toWAVEFORMATEX reader.format))
          [Event.SetFormat (some (toWAVEFORMATEX reader.format))]).frames env 0 n).trace := by
      rcases h with ⟨_, ht⟩ | ⟨_, ht⟩
      · rw [ht, allocCalls_append, hfin.1, List.append_nil]
      · rw [ht]
    have hr : readCalls (PumpThread env fuel q).trace =
        readCalls ((Locals.first (bytesPerFrame (toWAVEFORMATEX reader.format))
          [Event.SetFormat (some (toWAVEFORMATEX reader.format))]).frames env 0 n).trace := by
      rcases h with ⟨_, ht⟩ | ⟨_, ht⟩
      · rw [ht, readCalls_append, hfin.2.1, List.append_nil]
      · rw [ht]
    have hc : processAudioCalls (PumpThread env fuel q).trace =
        processAudioCalls ((Locals.first (bytesPerFrame (toWAVEFORMATEX reader.format))
          [Event.SetFormat (some (toWAVEFORMATEX reader.format))]).frames env 0 n).trace := by
      rcases h with ⟨_, ht⟩ | ⟨_, ht⟩
      · rw [ht, processAudioCalls_append, hfin.2.2, List.append_nil]
      · rw [ht]
    rw [ha, hr, hc]
    refine ⟨?_, ?_, ?_⟩
    · intro hkeeps _
      obtain ⟨_, _, h3, h4⟩ := Locals.frames_never_kept env hkeeps n
        (Locals.first (bytesPerFrame (toWAVEFORMATEX reader.format))
          [Event.SetFormat (some (toWAVEFORMATEX reader.format))]) 0 (le_refl 1)
      rw [h3]
      refine ⟨rfl, rfl, ?_⟩
      intro c hmem
      rcases h4 c hmem with h5 | h5
      · exact absurd h5 (List.not_mem_nil c)
      · exact h5
    · intro hkeeps
      obtain ⟨m, rfl⟩ : ∃ m, n = m + 1 := ⟨n - 1, by omega⟩
      obtain ⟨_, _, h3, h4⟩ := Locals.frames_all_kept env hkeeps
        (bytesPerFrame (toWAVEFORMATEX reader.format))
        [Event.SetFormat (some (toWAVEFORMATEX reader.format))] rfl rfl m
      refine ⟨?_, ?_⟩
      · have e1 := congrArg List.length h3
        have e2 := congrArg List.length h4
        simp only [List.length_map, List.length_range] at e1 e2
        rw [e1, e2]
      · rw [h4]
        exact List.nodup_range (m + 1)
    · intro c hmem
      rcases Locals.frames_read_size env n _ _ c hmem with h1 | h1
      · exact absurd h1 (List.not_mem_nil c)
      · exact h1.2
  · rw [PumpThread_unsupported env fuel (StartPump p).pump reader hr1 hfmt]
    refine ⟨fun _ h => absurd h hfmt, fun _ => ⟨rfl, List.nodup_nil⟩, ?_⟩
    intro c hmem
    exact absurd hmem (List.not_mem_nil c)

/-- C8 on the five-frame stream, with a processor that keeps every buffer: six
buffers for six `ProcessAudio` calls, all different. -/
theorem PumpThread_buffer_reuse_five_frames_kept :
    (allocCalls (PumpThread fiveFramesKept 10 (started pcm16k)).trace).length =
      (processAudioCalls (PumpThread fiveFramesKept 10 (started pcm16k)).trace).length ∧
    (processAudioCalls (PumpThread fiveFramesKept 10 (started pcm16k)).trace).map Prod.fst =
      [0, 1, 2, 3, 4, 5] ∧
    (processAudioCalls (PumpThread fiveFrames 10 (started pcm16k)).trace).map Prod.fst =
      [0, 0, 0, 0, 0, 0] :=
  have h := PumpThread_buffer_reuse fiveFramesKept 10 (attached pcm16k) pcm16k rfl
    (by decide) (by decide)
  ⟨(h.2.1 (fun _ => rfl)).1, by decide, by decide⟩

/-- C8, the claim as written fails: with a processor that keeps no buffer, the
run on the 12-bit reader allocates no buffer at all, not one. -/
theorem PumpThread_unsupported_allocates_nothing :
    (StartPump (attached pcm12bit)).thrown = none ∧
    (∀ k, k < 10 → fiveFrames.keeps k = false) ∧
    (PumpThread fiveFrames 10 (started pcm12bit)).status =
      Status.Threw SPXHR.SPXERR_UNSUPPORTED_FORMAT ∧
    (allocCalls (PumpThread fiveFrames 10 (started pcm12bit)).trace).length = 0 ∧
    (allocCalls (PumpThread fiveFrames 10 (started pcm12bit)).trace).length ≠ 1 := by
  refine ⟨by decide, by decide, by decide, by decide, by decide⟩

end CSpxStreamPump

namespace CSpxStreamPump

/-! ## The interleaved system -/

theorem System.run_append (a b : List Step) :
    ∀ (s : System), s.run (a ++ b) = (s.run a).bind fun s1 => s1.run b := by
  induction a with
  | nil => intro s; rfl
  | cons x rest ih =>
    intro s
    simp only [List.cons_append, System.run]
    cases s.step x with
    | none => rfl
    | some s1 => exact ih s1

theorem System.run_snoc (steps : List Step) (a : Step) (s s2 : System)
    (h : s.run (steps ++ [a]) = some s2) :
    ∃ s1, s.run steps = some s1 ∧ s1.step a = some s2 := by
  rw [System.run_append] at h
  cases h1 : s.run steps with
  | none => rw [h1] at h; exact absurd h (by simp)
  | some s1 =>
    rw [h1] at h
    refine ⟨s1, rfl, ?_⟩
    simp only [Option.bind, System.run] at h
    cases h2 : s1.step a with
    | none => rw [h2] at h; exact absurd h (by simp)
    | some s3 =>
      rw [h2] at h
      exact h

/-- Every step keeps the invariant. -/
theorem System.step_Inv (s s2 : System) (a : Step) (hinv : s.Inv) (h : s.step a = some s2) :
    s2.Inv := by
  obtain ⟨⟨r, st, rq, th⟩, c, w⟩ := s
  cases w <;> cases c <;> cases st <;> cases rq <;> cases th <;> cases r <;>
    (try simp [System.Inv, System.atRest, System.beforeFirstCheck, System.pumping] at hinv) <;>
    cases a <;>
    (try simp [System.step, System.afterCall, SetAudioStream, SetFormat, StartPump, PausePump,
      StopPump, throwHR, returned, startPumpMayReturn, stopPumpMayReturn, checkAndChangeState,
      requestIdle] at h) <;>
    (try subst h) <;>
    (try simp [System.Inv, System.atRest, System.beforeFirstCheck, System.pumping])
  all_goals (first | (rename_i reader; cases reader <;> simp) | skip)
  all_goals
    (split at h <;> simp at h <;> subst h <;>
      simp [System.Inv, System.atRest, System.beforeFirstCheck, System.pumping])

theorem System.init_Inv : System.init.Inv := by
  simp [System.init, System.Inv, System.atRest, new]

/-- Every state reached from a state with the invariant has the invariant. -/
theorem System.run_Inv (steps : List Step) :
    ∀ (s s2 : System), s.Inv → s.run steps = some s2 → s2.Inv := by
  induction steps with
  | nil =>
    intro s s2 hinv h
    simp only [System.run, Option.some.injEq] at h
    rw [← h]
    exact hinv
  | cons a rest ih =>
    intro s s2 hinv h
    simp only [System.run] at h
    cases hs : s.step a with
    | none => rw [hs] at h; exact absurd h (by simp)
    | some s1 =>
      rw [hs] at h
      exact ih s1 s2 (System.step_Inv s s1 a hinv hs) h

/-- Under the invariant the current state is never `Paused`, and the source is
null exactly when the current state is `NoInput`. -/
theorem System.Inv_state (s : System) (hinv : s.Inv) :
    s.pump.m_state ≠ State.Paused ∧
    (s.pump.m_streamReader = none ↔ s.pump.m_state = State.NoInput) := by
  obtain ⟨⟨r, st, rq, th⟩, c, w⟩ := s
  cases w <;> cases st <;> cases r <;>
    simp [System.Inv, System.atRest, System.beforeFirstCheck, System.pumping] at hinv ⊢

/-- C10: in every state reached from the freshly constructed controller by
steps of one caller and of the pump thread, the current state is not `Paused`
and the source is null exactly when the current state is `NoInput`; so there
`StartPump` throws neither `SPXERR_NO_AUDIO_INPUT` nor `SPXERR_NOT_IMPL`, and
`StopPump` is not in its `Paused` case. -/
theorem reachable_never_paused (steps : List Step) (s : System)
    (h : System.init.run steps = some s) :
    s.pump.m_state ≠ State.Paused ∧
    (s.pump.m_streamReader = none ↔ s.pump.m_state = State.NoInput) ∧
    (StartPump s.pump).thrown ≠ some SPXHR.SPXERR_NO_AUDIO_INPUT ∧
    (StartPump s.pump).thrown ≠ some SPXHR.SPXERR_NOT_IMPL ∧
    (StopPump s.pump = returned s.pump ∨ s.pump.m_state = State.Processing) := by
  have hinv := System.run_Inv steps System.init s System.init_Inv h
  obtain ⟨h1, h2⟩ := System.Inv_state s hinv
  obtain ⟨⟨r, st, rq, th⟩, c, w⟩ := s
  refine ⟨h1, h2, ?_, ?_, ?_⟩
  · cases st <;> cases r <;> cases th <;> simp_all [StartPump, throwHR]
  · cases st <;> cases r <;> cases th <;> simp_all [StartPump, throwHR]
  · cases st <;> simp_all [StopPump]

/-- C10 at the end of the stream: the state `atEndOfStream` is reached, with a
source and the current state `Processing`. -/
theorem reachable_never_paused_at_end_of_stream :
    System.init.run untilEndOfStream = some atEndOfStream ∧
    atEndOfStream.pump.m_state ≠ State.Paused ∧
    (atEndOfStream.pump.m_streamReader = none ↔ atEndOfStream.pump.m_state = State.NoInput) ∧
    (StartPump atEndOfStream.pump).thrown = some SPXHR.SPXERR_AUDIO_IS_PUMPING :=
  have hr : System.init.run untilEndOfStream = some atEndOfStream := by decide
  have h := reachable_never_paused untilEndOfStream atEndOfStream hr
  ⟨hr, h.1, h.2.1, by decide⟩

end CSpxStreamPump

namespace CSpxStreamPump

/-! ## Current state against requested state -/

/-- After `checkAndChangeState` the current state is the requested state. -/
theorem checkAndChangeState_agree (p : CSpxStreamPump) :
    (checkAndChangeState p).2.m_state = (checkAndChangeState p).2.m_stateRequested := by
  obtain ⟨r, st, rq, th⟩ := p
  cases st <;> cases rq <;> simp [checkAndChangeState]

/-- How a step can end with the thread not running: it was the last
`checkAndChangeState`, after which the two states agree; or it was a
`SetAudioStream` that succeeded; or the thread was not running before and no
member changed. -/
theorem System.step_to_rest (s s2 : System) (a : Step) (hinv : s.Inv)
    (h : s.step a = some s2) (hw : s2.worker = Worker.NotRunning) :
    (a = Step.Check ∧ s2.pump.m_state = s2.pump.m_stateRequested) ∨
    (∃ reader, a = Step.SetAudioStream reader ∧ (SetAudioStream reader s.pump).thrown = none) ∨
    (a ≠ Step.Check ∧ s.worker = Worker.NotRunning ∧ s2.pump = s.pump) := by
  obtain ⟨⟨r, st, rq, th⟩, c, w⟩ := s
  cases w <;> cases c <;> cases st <;> cases rq <;> cases th <;> cases r <;>
    (try simp [System.Inv, System.atRest, System.beforeFirstCheck, System.pumping] at hinv) <;>
    cases a <;>
    (try simp [System.step, System.afterCall, SetAudioStream, SetFormat, StartPump, PausePump,
      StopPump, throwHR, returned, startPumpMayReturn, stopPumpMayReturn, checkAndChangeState,
      requestIdle] at h) <;>
    (try subst h) <;>
    (try simp at hw) <;>
    (try simp [SetAudioStream, throwHR, returned])
  all_goals (rename_i reader; cases reader <;> simp_all)
  all_goals (split at h <;> simp at h <;> subst h <;> simp at hw)

end CSpxStreamPump

namespace CSpxStreamPump

/-- The two states agree whenever the thread is not running, unless a
`SetAudioStream` succeeded after the last `checkAndChangeState`. -/
theorem System.rest_agrees_or_attached (steps : List Step) :
    ∀ (s : System), System.init.run steps = some s → s.worker = Worker.NotRunning →
      s.pump.m_state = s.pump.m_stateRequested ∨ attachedSince steps := by
  induction steps using List.reverseRecOn with
  | nil =>
    intro s h _
    simp only [System.run, Option.some.injEq] at h
    rw [← h]
    exact Or.inl rfl
  | append_singleton steps a ih =>
    intro s h hw
    obtain ⟨x, hx, hstep⟩ := System.run_snoc steps a _ _ h
    have hinv := System.run_Inv steps System.init x System.init_Inv hx
    rcases System.step_to_rest x s a hinv hstep hw with ⟨_, heq⟩ | ⟨reader, rfl, hok⟩ |
      ⟨hne, hxw, hp⟩
    · exact Or.inl heq
    · exact Or.inr ⟨steps, reader, [], x, rfl, hx, hok, List.not_mem_nil _⟩
    · rcases ih x hx hxw with h1 | ⟨pre, reader, post, s0, rfl, h0, hok, hnc⟩
      · left
        rw [hp]
        exact h1
      · right
        refine ⟨pre, reader, post ++ [a], s0, by simp, h0, hok, ?_⟩
        intro hmem
        rcases List.mem_append.1 hmem with h2 | h2
        · exact hnc h2
        · exact hne (List.mem_singleton.1 h2).symm

/-- C9 (as the code has it): in every state reached from the freshly
constructed controller by steps of one caller and of the pump thread, with the
thread not running and no call in progress, the current state and the
requested state are each `NoInput` or `Idle`, and they are equal unless some
`SetAudioStream` succeeded after the last `checkAndChangeState` of the thread
(or with no such check at all): `SetAudioStream` writes the current state
only. -/
theorem rest_states_agree_unless_attached (steps : List Step) (s : System)
    (h : System.init.run steps = some s)
    (hw : s.worker = Worker.NotRunning) (hc : s.caller = Caller.Ready) :
    (s.pump.m_state = s.pump.m_stateRequested ∨ attachedSince steps) ∧
    (s.pump.m_state = State.NoInput ∨ s.pump.m_state = State.Idle) ∧
    (s.pump.m_stateRequested = State.NoInput ∨ s.pump.m_stateRequested = State.Idle) ∧
    s.step Step.GetState = some s := by
  have hinv := System.run_Inv steps System.init s System.init_Inv h
  refine ⟨System.rest_agrees_or_attached steps s h hw, ?_, ?_, ?_⟩
  · obtain ⟨⟨r, st, rq, th⟩, c, w⟩ := s
    simp only at hw
    subst hw
    simp only [System.Inv, System.atRest] at hinv
    rcases hinv.2.1 with h1 | h1
    · exact Or.inl h1.2
    · exact Or.inr h1.2
  · obtain ⟨⟨r, st, rq, th⟩, c, w⟩ := s
    simp only at hw
    subst hw
    simp only [System.Inv, System.atRest] at hinv
    exact hinv.2.2.1
  · simp [System.step, hc]

/-- C9 after a whole run: from `untilEndOfStream` one more check ends the run,
and the system is at rest with both states `Idle`. -/
theorem rest_states_agree_after_run :
    System.init.run (untilEndOfStream ++ [Step.Check]) = some stoppedSystem ∧
    stoppedSystem.pump.m_state = State.Idle ∧ stoppedSystem.pump.m_stateRequested = State.Idle ∧
    (stoppedSystem.pump.m_state = stoppedSystem.pump.m_stateRequested ∨
      attachedSince (untilEndOfStream ++ [Step.Check])) :=
  have hr : System.init.run (untilEndOfStream ++ [Step.Check]) = some stoppedSystem := by decide
  have h := rest_states_agree_unless_attached (untilEndOfStream ++ [Step.Check]) stoppedSystem
    hr rfl rfl
  ⟨hr, rfl, rfl, h.1⟩

/-- C9, the claim as written fails: after `SetAudioStream(pcm16k)` has returned
on the freshly constructed controller, with no thread running and no call in
progress, the current state is `Idle` and the requested state is `NoInput`. -/
theorem attached_states_differ :
    System.init.run [Step.SetAudioStream (some pcm16k)] = some attachedSystem ∧
    attachedSystem.caller = Caller.Ready ∧ attachedSystem.worker = Worker.NotRunning ∧
    attachedSystem.pump.m_thread = false ∧
    attachedSystem.pump.m_state = State.Idle ∧
    attachedSystem.pump.m_stateRequested = State.NoInput ∧
    attachedSystem.pump.m_state ≠ attachedSystem.pump.m_stateRequested := by
  refine ⟨by decide, by decide, by decide, by decide, by decide, by decide, by decide⟩

end CSpxStreamPump

namespace CSpxStreamPump

/-! ## `StopPump` -/

/-- A step of the pump thread leaves the caller where it is, keeps a requested
`Idle`, and changes the current state only in `checkAndChangeState`, to the
requested state. -/
theorem System.worker_step_effect (x y : System) (a : Step) (ha : a.isWorker = true)
    (h : x.step a = some y) :
    y.caller = x.caller ∧
    (x.pump.m_stateRequested = State.Idle → y.pump.m_stateRequested = State.Idle) ∧
    (y.pump.m_state = x.pump.m_state ∨
      (a = Step.Check ∧ y.pump.m_state = x.pump.m_stateRequested)) := by
  obtain ⟨⟨r, st, rq, th⟩, c, w⟩ := x
  cases a with
  | Negotiate =>
    simp only [System.step] at h
    split at h
    · split at h <;> simp only [Option.some.injEq] at h <;> subst h <;>
        exact ⟨rfl, fun e => e, Or.inl rfl⟩
    · exact absurd h (by simp)
  | Check =>
    simp only [System.step] at h
    by_cases hwk : w = Worker.AtCheck
    · rw [if_pos hwk] at h
      simp only [Option.some.injEq] at h
      subst h
      refine ⟨rfl, ?_, ?_⟩
      · intro e
        simp only at e
        subst e
        cases st <;> simp [checkAndChangeState]
      · cases st <;> cases rq <;> simp [checkAndChangeState]
    · rw [if_neg hwk] at h
      exact absurd h (by simp)
  | Frame cbRead =>
    simp only [System.step] at h
    by_cases hwk : w = Worker.InBody
    · rw [if_pos hwk] at h
      simp only [Option.some.injEq] at h
      subst h
      refine ⟨rfl, ?_, ?_⟩
      · intro e
        simp only at e
        subst e
        split_ifs <;> simp [requestIdle]
      · left
        split_ifs <;> simp [requestIdle]
    · rw [if_neg hwk] at h
      exact absurd h (by simp)
  | SetAudioStream reader => exact absurd ha (by simp [Step.isWorker])
  | GetFormat => exact absurd ha (by simp [Step.isWorker])
  | SetFormat => exact absurd ha (by simp [Step.isWorker])
  | StartPump => exact absurd ha (by simp [Step.isWorker])
  | PausePump => exact absurd ha (by simp [Step.isWorker])
  | StopPump => exact absurd ha (by simp [Step.isWorker])
  | GetState => exact absurd ha (by simp [Step.isWorker])
  | Wake => exact absurd ha (by simp [Step.isWorker])

/-- While only the pump thread moves and `Idle` is requested: the caller stays
where it is, `Idle` stays requested, and the current state is what it was
unless a `checkAndChangeState` has made it `Idle`. -/
theorem System.worker_run_effect (mid : List Step) :
    ∀ (x y : System), (∀ a ∈ mid, a.isWorker = true) → x.run mid = some y →
      x.pump.m_stateRequested = State.Idle →
      y.caller = x.caller ∧ y.pump.m_stateRequested = State.Idle ∧
      (y.pump.m_state = x.pump.m_state ∨ (Step.Check ∈ mid ∧ y.pump.m_state = State.Idle)) := by
  induction mid with
  | nil =>
    intro x y _ h hrq
    simp only [System.run, Option.some.injEq] at h
    subst h
    exact ⟨rfl, hrq, Or.inl rfl⟩
  | cons a rest ih =>
    intro x y hall h hrq
    simp only [System.run] at h
    cases hs : x.step a with
    | none => rw [hs] at h; exact absurd h (by simp)
    | some x1 =>
      rw [hs] at h
      obtain ⟨hc1, hrq1, hst1⟩ :=
        System.worker_step_effect x x1 a (hall a (List.mem_cons_self a rest)) hs
      obtain ⟨hc2, hrq2, hst2⟩ :=
        ih x1 y (fun b hb => hall b (List.mem_cons_of_mem a hb)) h (hrq1 hrq)
      refine ⟨hc2.trans hc1, hrq2, ?_⟩
      rcases hst2 with h2 | ⟨hmem, h2⟩
      · rcases hst1 with h1 | ⟨rfl, h1⟩
        · exact Or.inl (h2.trans h1)
        · right
          exact ⟨List.mem_cons_self _ _, by rw [h2, h1, hrq]⟩
      · exact Or.inr ⟨List.mem_cons_of_mem a hmem, h2⟩

/-- C7: `StopPump` with the current state `NoInput` or `Idle` throws nothing,
changes no member, creates no thread and does not wait, and the system is as
it was. `StopPump` with the current state `Processing` writes `Idle` to the
requested state and nothing else, creates no thread, and waits: the caller is
blocked and cannot return at once. Made by the only caller, whatever the pump
thread does meanwhile, when the call returns a `checkAndChangeState` has run
since, both states are `Idle`, and a `GetState` made then returns `Idle`; and
the call does return once the thread has made that check. The requested state
before the call is arbitrary, so this covers the thread having requested
`Idle` first. -/
theorem StopPump_returns_after_adoption :
    (∀ p : CSpxStreamPump, p.m_state = State.NoInput ∨ p.m_state = State.Idle →
      (StopPump p).thrown = none ∧ (StopPump p).pump = p ∧
      (StopPump p).spawned = false ∧ (StopPump p).waits = false) ∧
    (∀ s : System, s.caller = Caller.Ready →
      s.pump.m_state = State.NoInput ∨ s.pump.m_state = State.Idle →
      s.step Step.StopPump = some s) ∧
    (∀ p : CSpxStreamPump, p.m_state = State.Processing →
      (StopPump p).thrown = none ∧
      (StopPump p).pump.m_stateRequested = State.Idle ∧
      (StopPump p).pump.m_state = State.Processing ∧
      (StopPump p).pump.m_streamReader = p.m_streamReader ∧
      (StopPump p).pump.m_thread = p.m_thread ∧
      (StopPump p).spawned = false ∧ (StopPump p).waits = true) ∧
    (∀ s : System, s.caller = Caller.Ready → s.pump.m_state = State.Processing →
      s.step Step.StopPump =
        some { pump := { s.pump with m_stateRequested := State.Idle }
               caller := Caller.InStopPump
               worker := s.worker } ∧
      s.run [Step.StopPump, Step.Wake] = none) ∧
    (∀ (s s2 : System) (mid : List Step),
      s.caller = Caller.Ready → s.pump.m_state = State.Processing →
      (∀ a ∈ mid, a.isWorker = true) →
      s.run (Step.StopPump :: (mid ++ [Step.Wake])) = some s2 →
      Step.Check ∈ mid ∧
      s2.caller = Caller.Ready ∧ s2.pump.m_state = State.Idle ∧
      s2.pump.m_stateRequested = State.Idle ∧
      GetState s2.pump = State.Idle ∧ s2.step Step.GetState = some s2) ∧
    (∀ s : System, s.caller = Caller.Ready → s.pump.m_state = State.Processing →
      s.worker = Worker.AtCheck →
      s.run [Step.StopPump, Step.Check, Step.Wake] =
        some { pump := { s.pump with
                 m_state := State.Idle, m_stateRequested := State.Idle, m_thread := false }
               caller := Caller.Ready
               worker := Worker.NotRunning }) ∧
    (∀ (s : System) (cbRead : Nat), s.caller = Caller.Ready →
      s.pump.m_state = State.Processing → s.worker = Worker.InBody →
      s.run [Step.StopPump, Step.Frame cbRead, Step.Check, Step.Wake] =
        some { pump := { s.pump with
                 m_state := State.Idle, m_stateRequested := State.Idle, m_thread := false }
               caller := Caller.Ready
               worker := Worker.NotRunning }) := by
  have hstop : ∀ (r : Option AudioInputStream) (rq : State) (th : Bool), StopPump
      { m_streamReader := r, m_state := State.Processing, m_stateRequested := rq, m_thread := th } =
      { thrown := none
        pump := { m_streamReader := r, m_state := State.Processing,
                  m_stateRequested := State.Idle, m_thread := th }
        spawned := false
        waits := true } := by
    intro r rq th
    simp [StopPump, stopPumpMayReturn]
  refine ⟨?_, ?_, ?_, ?_, ?_, ?_, ?_⟩
  · intro p hp
    obtain ⟨r, st, rq, th⟩ := p
    rcases hp with hp | hp <;> simp only at hp <;> subst hp <;>
      exact ⟨rfl, rfl, rfl, rfl⟩
  · intro s hc hp
    obtain ⟨⟨r, st, rq, th⟩, c, w⟩ := s
    simp only at hc hp
    subst hc
    rcases hp with hp | hp <;> subst hp <;>
      simp [System.step, System.afterCall, StopPump, returned]
  · intro p hp
    obtain ⟨r, st, rq, th⟩ := p
    simp only at hp
    subst hp
    rw [hstop]
    exact ⟨rfl, rfl, rfl, rfl, rfl, rfl, rfl⟩
  · intro s hc hst
    obtain ⟨⟨r, st, rq, th⟩, c, w⟩ := s
    simp only at hc hst
    subst hc hst
    constructor
    · simp [System.step, System.afterCall, hstop]
    · simp [System.run, System.step, System.afterCall, hstop, stopPumpMayReturn]
  · intro s s2 mid hc hst hmid hrun
    obtain ⟨⟨r, st, rq, th⟩, c, w⟩ := s
    simp only at hc hst
    subst hc hst
    simp only [System.run, System.step, if_true, System.afterCall, hstop] at hrun
    rw [System.run_append] at hrun
    cases hy : System.run
        { pump := { m_streamReader := r, m_state := State.Processing,
                    m_stateRequested := State.Idle, m_thread := th }
          caller := Caller.InStopPump
          worker := w } mid with
    | none =>
      simp only [if_true, Bool.false_eq_true, if_false] at hrun
      rw [hy] at hrun
      exact absurd hrun (by simp)
    | some y =>
      simp only [if_true, Bool.false_eq_true, if_false] at hrun
      rw [hy] at hrun
      obtain ⟨hc1, hrq1, hst1⟩ := System.worker_run_effect mid _ y hmid hy rfl
      simp only at hc1 hst1
      obtain ⟨⟨r1, st1, rq1, th1⟩, c1, w1⟩ := y
      simp only at hc1 hrq1 hst1
      subst hc1 hrq1
      simp only [Option.bind, System.run, System.step, stopPumpMayReturn] at hrun
      rcases hst1 with h1 | ⟨hmem, h1⟩
      · subst h1
        simp at hrun
      · subst h1
        simp only [decide_True, Bool.true_or, if_true, Option.some.injEq] at hrun
        subst hrun
        exact ⟨hmem, rfl, rfl, rfl, rfl, by simp [System.step]⟩
  · intro s hc hst hw
    obtain ⟨⟨r, st, rq, th⟩, c, w⟩ := s
    simp only at hc hst hw
    subst hc hst hw
    simp [System.run, System.step, System.afterCall, hstop, stopPumpMayReturn,
      checkAndChangeState]
  · intro s cbRead hc hst hw
    obtain ⟨⟨r, st, rq, th⟩, c, w⟩ := s
    simp only at hc hst hw
    subst hc hst hw
    by_cases h0 : cbRead = 0 <;>
      simp [System.run, System.step, System.afterCall, hstop, stopPumpMayReturn,
        checkAndChangeState, requestIdle, h0]

/-- C7 on two reached states. From `pumpingSystem` (both states `Processing`)
`StopPump` writes `Idle` over the requested `Processing` and blocks; after the
frame in progress and the check of the thread the call returns in
`stoppedSystem`, where `GetState` returns `Idle`. From `atEndOfStream`, where
the thread has requested `Idle` itself first, `StopPump`, the check and the
return lead to `stoppedSystem` too. In neither state can the call return
before the check. -/
theorem StopPump_after_end_of_stream :
    System.init.run untilPumping = some pumpingSystem ∧
    pumpingSystem.pump.m_stateRequested = State.Processing ∧
    (StopPump pumpingSystem.pump).pump.m_stateRequested = State.Idle ∧
    (StopPump pumpingSystem.pump).waits = true ∧
    pumpingSystem.run [Step.StopPump, Step.Wake] = none ∧
    pumpingSystem.run [Step.StopPump, Step.Frame 3200, Step.Check, Step.Wake] =
      some stoppedSystem ∧
    Step.Check ∈ [Step.Frame 3200, Step.Check] ∧
    System.init.run untilEndOfStream = some atEndOfStream ∧
    atEndOfStream.pump.m_stateRequested = State.Idle ∧
    atEndOfStream.run [Step.StopPump, Step.Wake] = none ∧
    atEndOfStream.run [Step.StopPump, Step.Check, Step.Wake] = some stoppedSystem ∧
    GetState stoppedSystem.pump = State.Idle :=
  have hw := StopPump_returns_after_adoption.2.2.1 pumpingSystem.pump rfl
  have hb := StopPump_returns_after_adoption.2.2.2.1 pumpingSystem rfl rfl
  have hp := StopPump_returns_after_adoption.2.2.2.2.2.2 pumpingSystem 3200 rfl rfl rfl
  have hm := StopPump_returns_after_adoption.2.2.2.2.1 pumpingSystem stoppedSystem
    [Step.Frame 3200, Step.Check] rfl rfl (by decide) hp
  have he := StopPump_returns_after_adoption.2.2.2.2.2.1 atEndOfStream rfl rfl rfl
  have hn := StopPump_returns_after_adoption.2.2.2.1 atEndOfStream rfl rfl
  ⟨by decide, rfl, hw.2.1, hw.2.2.2.2.2.2, hb.2, hp, hm.1, by decide, rfl, hn.2, he,
    hm.2.2.2.2.1⟩

end CSpxStreamPump
